import Mathlib

/-!
Verification development for the prow `milestone` and `milestonestatus` plugins
(files `prow/plugins/milestone/milestone.go` and
`prow/plugins/milestonestatus/milestonestatus.go`).

The two `handle` functions are embedded as pure functions from an event, a
configuration mapping and a GitHub-client oracle (a record of response
functions) to a `HandleResult`: the ordered trace of API calls performed, the
structured log entries emitted, and the returned error (`none` models a `nil`
Go error).

The Go regular expressions are anchored with `(?m)^ ... $`, so they are
modelled per line of the comment body; `\s` is RE2's Perl class `[\t\n\f\r ]`.
-/

namespace Prow

/-- Go `error` values are modelled as strings; `none` in an `Option GHError`
models a `nil` error. -/
abbrev GHError := String

/-- The non-ASCII part of Unicode's simple lowercase mapping, used by Go's
`unicode.ToLower` (and hence `strings.ToLower`): `(first, last, stride,
delta)` ranges over codepoints; a codepoint `n` in a range at the stride's
step maps to `n + delta`. -/
def lowerDeltaRanges : List (Nat × Nat × Nat × Int) := [
  (0xc0, 0xd6, 1, 32), (0xd8, 0xde, 1, 32), (0x100, 0x12e, 2, 1),
  (0x130, 0x130, 1, -199), (0x132, 0x136, 2, 1), (0x139, 0x147, 2, 1),
  (0x14a, 0x176, 2, 1), (0x178, 0x178, 1, -121), (0x179, 0x17d, 2, 1),
  (0x181, 0x181, 1, 210), (0x182, 0x184, 2, 1), (0x186, 0x186, 1, 206),
  (0x187, 0x187, 1, 1), (0x189, 0x18a, 1, 205), (0x18b, 0x18b, 1, 1),
  (0x18e, 0x18e, 1, 79), (0x18f, 0x18f, 1, 202), (0x190, 0x190, 1, 203),
  (0x191, 0x191, 1, 1), (0x193, 0x193, 1, 205), (0x194, 0x194, 1, 207),
  (0x196, 0x196, 1, 211), (0x197, 0x197, 1, 209), (0x198, 0x198, 1, 1),
  (0x19c, 0x19c, 1, 211), (0x19d, 0x19d, 1, 213), (0x19f, 0x19f, 1, 214),
  (0x1a0, 0x1a4, 2, 1), (0x1a6, 0x1a6, 1, 218), (0x1a7, 0x1a7, 1, 1),
  (0x1a9, 0x1a9, 1, 218), (0x1ac, 0x1ac, 1, 1), (0x1ae, 0x1ae, 1, 218),
  (0x1af, 0x1af, 1, 1), (0x1b1, 0x1b2, 1, 217), (0x1b3, 0x1b5, 2, 1),
  (0x1b7, 0x1b7, 1, 219), (0x1b8, 0x1b8, 1, 1), (0x1bc, 0x1bc, 1, 1),
  (0x1c4, 0x1c4, 1, 2), (0x1c5, 0x1c5, 1, 1), (0x1c7, 0x1c7, 1, 2),
  (0x1c8, 0x1c8, 1, 1), (0x1ca, 0x1ca, 1, 2), (0x1cb, 0x1db, 2, 1),
  (0x1de, 0x1ee, 2, 1), (0x1f1, 0x1f1, 1, 2), (0x1f2, 0x1f4, 2, 1),
  (0x1f6, 0x1f6, 1, -97), (0x1f7, 0x1f7, 1, -56), (0x1f8, 0x21e, 2, 1),
  (0x220, 0x220, 1, -130), (0x222, 0x232, 2, 1), (0x23a, 0x23a, 1, 10795),
  (0x23b, 0x23b, 1, 1), (0x23d, 0x23d, 1, -163), (0x23e, 0x23e, 1, 10792),
  (0x241, 0x241, 1, 1), (0x243, 0x243, 1, -195), (0x244, 0x244, 1, 69),
  (0x245, 0x245, 1, 71), (0x246, 0x24e, 2, 1), (0x370, 0x372, 2, 1),
  (0x376, 0x376, 1, 1), (0x37f, 0x37f, 1, 116), (0x386, 0x386, 1, 38),
  (0x388, 0x38a, 1, 37), (0x38c, 0x38c, 1, 64), (0x38e, 0x38f, 1, 63),
  (0x391, 0x3a1, 1, 32), (0x3a3, 0x3ab, 1, 32), (0x3cf, 0x3cf, 1, 8),
  (0x3d8, 0x3ee, 2, 1), (0x3f4, 0x3f4, 1, -60), (0x3f7, 0x3f7, 1, 1),
  (0x3f9, 0x3f9, 1, -7), (0x3fa, 0x3fa, 1, 1), (0x3fd, 0x3ff, 1, -130),
  (0x400, 0x40f, 1, 80), (0x410, 0x42f, 1, 32), (0x460, 0x480, 2, 1),
  (0x48a, 0x4be, 2, 1), (0x4c0, 0x4c0, 1, 15), (0x4c1, 0x4cd, 2, 1),
  (0x4d0, 0x52e, 2, 1), (0x531, 0x556, 1, 48), (0x10a0, 0x10c5, 1, 7264),
  (0x10c7, 0x10c7, 1, 7264), (0x10cd, 0x10cd, 1, 7264), (0x13a0, 0x13ef, 1, 38864),
  (0x13f0, 0x13f5, 1, 8), (0x1c90, 0x1cba, 1, -3008), (0x1cbd, 0x1cbf, 1, -3008),
  (0x1e00, 0x1e94, 2, 1), (0x1e9e, 0x1e9e, 1, -7615), (0x1ea0, 0x1efe, 2, 1),
  (0x1f08, 0x1f0f, 1, -8), (0x1f18, 0x1f1d, 1, -8), (0x1f28, 0x1f2f, 1, -8),
  (0x1f38, 0x1f3f, 1, -8), (0x1f48, 0x1f4d, 1, -8), (0x1f59, 0x1f5f, 2, -8),
  (0x1f68, 0x1f6f, 1, -8), (0x1f88, 0x1f8f, 1, -8), (0x1f98, 0x1f9f, 1, -8),
  (0x1fa8, 0x1faf, 1, -8), (0x1fb8, 0x1fb9, 1, -8), (0x1fba, 0x1fbb, 1, -74),
  (0x1fbc, 0x1fbc, 1, -9), (0x1fc8, 0x1fcb, 1, -86), (0x1fcc, 0x1fcc, 1, -9),
  (0x1fd8, 0x1fd9, 1, -8), (0x1fda, 0x1fdb, 1, -100), (0x1fe8, 0x1fe9, 1, -8),
  (0x1fea, 0x1feb, 1, -112), (0x1fec, 0x1fec, 1, -7), (0x1ff8, 0x1ff9, 1, -128),
  (0x1ffa, 0x1ffb, 1, -126), (0x1ffc, 0x1ffc, 1, -9), (0x2126, 0x2126, 1, -7517),
  (0x212a, 0x212a, 1, -8383), (0x212b, 0x212b, 1, -8262), (0x2132, 0x2132, 1, 28),
  (0x2160, 0x216f, 1, 16), (0x2183, 0x2183, 1, 1), (0x24b6, 0x24cf, 1, 26),
  (0x2c00, 0x2c2f, 1, 48), (0x2c60, 0x2c60, 1, 1), (0x2c62, 0x2c62, 1, -10743),
  (0x2c63, 0x2c63, 1, -3814), (0x2c64, 0x2c64, 1, -10727), (0x2c67, 0x2c6b, 2, 1),
  (0x2c6d, 0x2c6d, 1, -10780), (0x2c6e, 0x2c6e, 1, -10749), (0x2c6f, 0x2c6f, 1, -10783),
  (0x2c70, 0x2c70, 1, -10782), (0x2c72, 0x2c72, 1, 1), (0x2c75, 0x2c75, 1, 1),
  (0x2c7e, 0x2c7f, 1, -10815), (0x2c80, 0x2ce2, 2, 1), (0x2ceb, 0x2ced, 2, 1),
  (0x2cf2, 0x2cf2, 1, 1), (0xa640, 0xa66c, 2, 1), (0xa680, 0xa69a, 2, 1),
  (0xa722, 0xa72e, 2, 1), (0xa732, 0xa76e, 2, 1), (0xa779, 0xa77b, 2, 1),
  (0xa77d, 0xa77d, 1, -35332), (0xa77e, 0xa786, 2, 1), (0xa78b, 0xa78b, 1, 1),
  (0xa78d, 0xa78d, 1, -42280), (0xa790, 0xa792, 2, 1), (0xa796, 0xa7a8, 2, 1),
  (0xa7aa, 0xa7aa, 1, -42308), (0xa7ab, 0xa7ab, 1, -42319), (0xa7ac, 0xa7ac, 1, -42315),
  (0xa7ad, 0xa7ad, 1, -42305), (0xa7ae, 0xa7ae, 1, -42308), (0xa7b0, 0xa7b0, 1, -42258),
  (0xa7b1, 0xa7b1, 1, -42282), (0xa7b2, 0xa7b2, 1, -42261), (0xa7b3, 0xa7b3, 1, 928),
  (0xa7b4, 0xa7c2, 2, 1), (0xa7c4, 0xa7c4, 1, -48), (0xa7c5, 0xa7c5, 1, -42307),
  (0xa7c6, 0xa7c6, 1, -35384), (0xa7c7, 0xa7c9, 2, 1), (0xa7d0, 0xa7d0, 1, 1),
  (0xa7d6, 0xa7d8, 2, 1), (0xa7f5, 0xa7f5, 1, 1), (0xff21, 0xff3a, 1, 32),
  (0x10400, 0x10427, 1, 40), (0x104b0, 0x104d3, 1, 40), (0x10570, 0x1057a, 1, 39),
  (0x1057c, 0x1058a, 1, 39), (0x1058c, 0x10592, 1, 39), (0x10594, 0x10595, 1, 39),
  (0x10c80, 0x10cb2, 1, 64), (0x118a0, 0x118bf, 1, 32), (0x16e40, 0x16e5f, 1, 32),
  (0x1e900, 0x1e921, 1, 34)]

/-- Go `unicode.ToLower`: the ASCII fast path, else the simple Unicode
lowercase mapping. -/
def toLowerChar (c : Char) : Char :=
  let n := c.toNat
  if n < 128 then
    if 65 ≤ n && n ≤ 90 then Char.ofNat (n + 32) else c
  else
    match lowerDeltaRanges.find? fun r =>
        decide (r.1 ≤ n) && decide (n ≤ r.2.1) && (n - r.1) % r.2.2.1 == 0 with
    | some r => Char.ofNat ((n : Int) + r.2.2.2).toNat
    | none => c

/-- `strings.ToLower`, lowering each character. -/
def goToLower (s : String) : String := ⟨s.data.map toLowerChar⟩

namespace github

/-- `github.TeamMember`: only the `Login` field is used by the plugins. -/
structure TeamMember where
  login : String
deriving DecidableEq, Repr

/-- `github.Milestone`: only `Title` and `Number` are used by the plugins. -/
structure Milestone where
  title : String
  number : Int
deriving DecidableEq, Repr

/-- Modelled from the spec: `github.RoleAll`, the "all roles" membership scope
passed to both team-member listing calls. -/
def RoleAll : String := "all"

/-- Modelled from the spec: `github.NormLogin` canonicalizes a login for the
mandatory case-insensitive identity comparison. -/
def NormLogin (login : String) : String := goToLower login

/-- `github.GenericCommentActionCreated`. -/
def GenericCommentActionCreated : String := "created"

/-- `github.GenericCommentEvent`, restricted to the fields both handlers read:
`Action`, `Body`, `User.Login`, `Repo.Owner.Login`, `Repo.Name`, `Number`,
`HTMLURL`. -/
structure GenericCommentEvent where
  action : String
  body : String
  userLogin : String
  repoOwnerLogin : String
  repoName : String
  number : Int
  htmlURL : String
deriving Repr

end github

namespace plugins

/-- `plugins.Milestone`: the per-repository group descriptor from the
configuration. -/
structure Milestone where
  MaintainersID : Int
  MaintainersTeam : String
  MaintainersFriendlyName : String
deriving DecidableEq, Repr

/-- The Go zero value of `plugins.Milestone`, produced by a map lookup on a
missing key. -/
def MilestoneZero : Milestone := ⟨0, "", ""⟩

/-- Modelled from the spec: `plugins.FormatResponseRaw` formats a rejection
message as a quoted/threaded reply referencing the original comment body,
permalink and author, producing the text posted as a comment. -/
def FormatResponseRaw (body htmlURL login reply : String) : String :=
  "@" ++ login ++ ": " ++ reply ++ "\n\nIn response to [this](" ++ htmlURL ++
    "):\n\n> " ++ body

end plugins

/-- One API call performed against the GitHub client, in the order the handler
issues them.  The source interfaces declare the two team-member listing
methods under a single name, distinguished by the slug (string) versus id
(int) parameter; they are modelled as two distinct operations. -/
inductive Call where
  | createComment (owner repo : String) (number : Int) (comment : String)
  | clearMilestone (org repo : String) (num : Int)
  | setMilestone (org repo : String) (issueNum milestoneNum : Int)
  | addLabel (owner repo : String) (number : Int) (label : String)
  | listTeamMembersBySlug (org teamSlug role : String)
  | listTeamMembersByID (org : String) (id : Int) (role : String)
  | listMilestones (org repo : String)
deriving DecidableEq, Repr

/-- A structured log entry: `log.WithError(err).Errorf(...)`. -/
structure LogEntry where
  err : GHError
  msg : String
deriving DecidableEq, Repr

/-- The GitHub client as an oracle of responses: each operation maps its
arguments to the result the API would return. -/
structure GithubClient where
  createComment : String → String → Int → String → Option GHError
  clearMilestone : String → String → Int → Option GHError
  setMilestone : String → String → Int → Int → Option GHError
  addLabel : String → String → Int → String → Option GHError
  listTeamMembersBySlug : String → String → String → Except GHError (List github.TeamMember)
  listTeamMembersByID : String → Int → String → Except GHError (List github.TeamMember)
  listMilestones : String → String → Except GHError (List github.Milestone)

/-- Result of one handler invocation: the trace of API calls, the log entries,
and the returned error (`none` = `nil`). -/
structure HandleResult where
  calls : List Call
  logs : List LogEntry
  ret : Option GHError
deriving DecidableEq, Repr

/-- The configuration lookup with fallback shared by both handlers:
`milestone, exists := repoMilestone[org+"/"+repo]; if !exists { milestone =
repoMilestone[""] }`, where a missing `""` key yields the Go zero value. -/
def effectiveMilestone (repoMilestone : String → Option plugins.Milestone)
    (org repo : String) : plugins.Milestone :=
  match repoMilestone (org ++ "/" ++ repo) with
  | some m => m
  | none => (repoMilestone "").getD plugins.MilestoneZero

/-- Calls that mutate the issue/PR: set/clear milestone and add label. -/
def Call.isMutation : Call → Bool
  | .clearMilestone _ _ _ => true
  | .setMilestone _ _ _ _ => true
  | .addLabel _ _ _ _ => true
  | _ => false

/-- Comment-posting calls. -/
def Call.isCreateComment : Call → Bool
  | .createComment _ _ _ _ => true
  | _ => false

/-- RE2's `\s` character class: `[\t\n\f\r ]`. -/
def goSpace (c : Char) : Bool :=
  c == ' ' || c == '\t' || c == '\n' || c == '\x0c' || c == '\r'

/-- Go `unicode.IsSpace`, the White_Space property: U+0009-U+000D, space,
NEL, NBSP, OGHAM SPACE MARK, the U+2000-U+200A spaces, LINE and PARAGRAPH
SEPARATOR, NARROW NO-BREAK SPACE, MEDIUM MATHEMATICAL SPACE and IDEOGRAPHIC
SPACE. -/
def unicodeSpace (c : Char) : Bool :=
  c == ' ' || ('\t' ≤ c && c ≤ '\r') || c == '\x85' || c == '\xa0' ||
    c == '\u1680' || ('\u2000' ≤ c && c ≤ '\u200a') || c == '\u2028' ||
    c == '\u2029' || c == '\u202f' || c == '\u205f' || c == '\u3000'

/-- Split a character list on newlines, as `(?m)` anchoring sees lines. -/
def splitOnNl : List Char → List (List Char)
  | [] => [[]]
  | c :: rest =>
    if c = '\n' then [] :: splitOnNl rest
    else
      match splitOnNl rest with
      | [] => [[c]]
      | l :: ls => (c :: l) :: ls

/-- Drop the trailing run of characters satisfying `p`. -/
def dropTrailing (p : Char → Bool) (l : List Char) : List Char :=
  (l.reverse.dropWhile p).reverse

/-- `strings.TrimSpace` on the character-list level. -/
def trimSpaceL (l : List Char) : List Char :=
  dropTrailing unicodeSpace (l.dropWhile unicodeSpace)

/-- `strings.TrimSpace`. -/
def trimSpace (s : String) : String := ⟨trimSpaceL s.data⟩

/-- Attempt `milestoneRegex = (?m)^/milestone\s+(.+?)\s*$` at a line-start
position, with Go's leftmost-first (backtracking-priority) semantics.  RE2's
`\s` includes the newline, so the whitespace run after the keyword may span
lines.  With the maximal `\s+` the lazy group starts at the first non-`\s`
character and grows until the remainder of that character's line is all
whitespace (`$` matches at any line end and `\s*` may cross newlines to
reach one): the capture is the rest of that line with trailing `\s` removed.
When the run after the keyword instead reaches the end of the text, `\s+`
backtracks (it must keep at least one character) and the group captures the
run's last non-newline character beyond its first, if any. -/
def milestoneTryMatch (text : List Char) : Option (List Char) :=
  if text.take 10 = "/milestone".data then
    let rest := text.drop 10
    let w := rest.takeWhile goSpace
    if w.isEmpty then none
    else
      match rest.dropWhile goSpace with
      | [] => ((w.drop 1).filter fun c => !(c == '\n')).getLast?.map fun c => [c]
      | afterW =>
        some (dropTrailing goSpace (afterW.takeWhile fun c => !(c == '\n')))
  else none

/-- The scan behind `FindStringSubmatch`: try the leftmost line-start match.
The fuel starts above the text length and every step consumes a character,
so it never runs out before the text does. -/
def milestoneScanAux : Nat → Bool → List Char → Option (List Char)
  | 0, _, _ => none
  | fuel + 1, atLineStart, text =>
    match if atLineStart then milestoneTryMatch text else none with
    | some cap => some cap
    | none =>
      match text with
      | [] => none
      | c :: rest => milestoneScanAux fuel (c == '\n') rest

/-- `milestoneRegex.FindStringSubmatch(body)`: the capture of the leftmost
match; `(?m)^` anchors every candidate position to a line start. -/
def milestoneFindSubmatch (body : String) : Option String :=
  (milestoneScanAux (body.data.length + 1) true body.data).map fun l => ⟨l⟩

/-- Attempt `statusRegex = (?m)^/status\s+(.+)$` at a line-start position:
with the maximal `\s+` (which may span newlines) the greedy group captures
the whole remainder of the current line, trailing whitespace included, and
the match ends at that line's end, where the scan for further matches
resumes.  When the whitespace run reaches the end of the text, `\s+`
backtracks and the group captures the run's last non-newline character
beyond its first, if any; only newlines can follow that match, so nothing
matchable remains. -/
def statusTryMatch (text : List Char) : Option (List Char × List Char) :=
  if text.take 7 = "/status".data then
    let rest := text.drop 7
    let w := rest.takeWhile goSpace
    if w.isEmpty then none
    else
      match rest.dropWhile goSpace with
      | [] => ((w.drop 1).filter fun c => !(c == '\n')).getLast?.map fun c => ([c], [])
      | afterW =>
        some (afterW.takeWhile fun c => !(c == '\n'),
          afterW.dropWhile fun c => !(c == '\n'))
  else none

/-- The scan behind `FindAllStringSubmatch`: find the leftmost match, emit
its capture, resume after its end.  The fuel starts above the text length
and every step consumes at least one character, so it never runs out before
the text does. -/
def statusScanAux : Nat → Bool → List Char → List (List Char)
  | 0, _, _ => []
  | fuel + 1, atLineStart, text =>
    match if atLineStart then statusTryMatch text else none with
    | some (cap, remaining) => cap :: statusScanAux fuel false remaining
    | none =>
      match text with
      | [] => []
      | c :: rest => statusScanAux fuel (c == '\n') rest

/-- `statusRegex.FindAllStringSubmatch(body, -1)`: the captures of every
match, in document order. -/
def statusFindAll (body : String) : List String :=
  (statusScanAux (body.data.length + 1) true body.data).map fun l => ⟨l⟩

namespace milestone

/-- `clearKeyword`. -/
def clearKeyword : String := "clear"

/-- The `mustBeAuthorized` format string of the milestone plugin, applied to
its five arguments. -/
def mustBeAuthorizedMsg (org team org2 team2 friendly : String) : String :=
  "You must be a member of the [" ++ org ++ "/" ++ team ++
    "](https://github.com/orgs/" ++ org2 ++ "/teams/" ++ team2 ++
    "/members) GitHub team to set the milestone. If you believe you should " ++
    "be able to issue the /milestone command, please contact your " ++ friendly ++
    " and have them propose you as an additional delegate for this responsibility."

/-- The `invalidMilestone` format string, applied to its two arguments. -/
def invalidMilestoneMsg (list clearKw : String) : String :=
  "The provided milestone is not valid for this repository. Milestones in " ++
    "this repository: [" ++ list ++ "]\n\nUse `/milestone " ++ clearKw ++
    "` to clear the milestone."

/-- A Go map write `m[k] = v` on the association-list model: a later write to
an existing key overwrites the earlier entry. -/
def mapInsert : List (String × Int) → String → Int → List (String × Int)
  | [], k, v => [(k, v)]
  | p :: rest, k, v =>
    if p.1 = k then (k, v) :: rest else p :: mapInsert rest k v

/-- Go map lookup `m[k]` returning presence. -/
def mapLookup (m : List (String × Int)) (k : String) : Option Int :=
  (m.find? fun p => p.1 == k).map fun p => p.2

def BuildMilestoneMap (milestones : List github.Milestone) : List (String × Int) :=
  milestones.foldl (fun m ms => mapInsert m ms.title ms.number) []

/-- `determineMaintainers`, returning the call made together with the client's
response.  The slug path is taken exactly when `MaintainersTeam` is non-empty;
otherwise members are listed by `MaintainersID`. -/
def determineMaintainers (gc : GithubClient) (milestone : plugins.Milestone)
    (org : String) : Call × Except GHError (List github.TeamMember) :=
  if milestone.MaintainersTeam ≠ "" then
    (.listTeamMembersBySlug org milestone.MaintainersTeam github.RoleAll,
      gc.listTeamMembersBySlug org milestone.MaintainersTeam github.RoleAll)
  else
    (.listTeamMembersByID org milestone.MaintainersID github.RoleAll,
      gc.listTeamMembersByID org milestone.MaintainersID github.RoleAll)

/-- The sorted, back-tick-quoted, comma-joined list of milestone titles used
in the invalid-milestone message: the code quotes each key of the milestone
map and then sorts with `sort.Strings`. -/
def sortedOptions (milestoneMap : List (String × Int)) : List String :=
  List.insertionSort (· ≤ ·) (milestoneMap.map fun p => "`" ++ p.1 ++ "`")

/-- `handle` of the milestone plugin. -/
def handle (gc : GithubClient) (e : github.GenericCommentEvent)
    (repoMilestone : String → Option plugins.Milestone) : HandleResult :=
  if e.action ≠ github.GenericCommentActionCreated then ⟨[], [], none⟩
  else
    match milestoneFindSubmatch e.body with
    | none => ⟨[], [], none⟩
    | some proposedMilestone =>
      let org := e.repoOwnerLogin
      let repo := e.repoName
      let milestone := effectiveMilestone repoMilestone org repo
      let det := determineMaintainers gc milestone org
      match det.2 with
      | .error err => ⟨[det.1], [], some err⟩
      | .ok milestoneMaintainers =>
        let found := milestoneMaintainers.any fun person =>
          github.NormLogin person.login == github.NormLogin e.userLogin
        if !found then
          let msg := mustBeAuthorizedMsg org milestone.MaintainersTeam org
            milestone.MaintainersTeam milestone.MaintainersFriendlyName
          let text := plugins.FormatResponseRaw e.body e.htmlURL e.userLogin msg
          ⟨[det.1, .createComment org repo e.number text], [],
            gc.createComment org repo e.number text⟩
        else
          match gc.listMilestones org repo with
          | .error err =>
            ⟨[det.1, .listMilestones org repo],
              [⟨err, "Error listing the milestones in the " ++ org ++ "/" ++
                repo ++ " repo"⟩], some err⟩
          | .ok milestones =>
            if proposedMilestone = clearKeyword then
              ⟨[det.1, .listMilestones org repo, .clearMilestone org repo e.number],
                match gc.clearMilestone org repo e.number with
                | none => []
                | some err =>
                  [⟨err, "Error clearing the milestone for " ++ org ++ "/" ++
                    repo ++ "#" ++ toString e.number ++ "."⟩],
                none⟩
            else
              let milestoneMap := BuildMilestoneMap milestones
              match mapLookup milestoneMap proposedMilestone with
              | none =>
                let msg := invalidMilestoneMsg
                  (String.intercalate ", " (sortedOptions milestoneMap)) clearKeyword
                let text := plugins.FormatResponseRaw e.body e.htmlURL e.userLogin msg
                ⟨[det.1, .listMilestones org repo,
                    .createComment org repo e.number text], [],
                  gc.createComment org repo e.number text⟩
              | some milestoneNumber =>
                ⟨[det.1, .listMilestones org repo,
                    .setMilestone org repo e.number milestoneNumber],
                  match gc.setMilestone org repo e.number milestoneNumber with
                  | none => []
                  | some err =>
                    [⟨err, "Error adding the milestone " ++ proposedMilestone ++
                      " to " ++ org ++ "/" ++ repo ++ "#" ++ toString e.number ++ "."⟩],
                  none⟩

end milestone

namespace milestonestatus

/-- The `mustBeAuthorized` format string of the milestonestatus plugin,
applied to its five arguments. -/
def mustBeAuthorizedMsg (org team org2 team2 friendly : String) : String :=
  "You must be a member of the [" ++ org ++ "/" ++ team ++
    "](https://github.com/orgs/" ++ org2 ++ "/teams/" ++ team2 ++
    "/members) GitHub team to add status labels. If you believe you should " ++
    "be able to issue the /status command, please contact your " ++ friendly ++
    " and have them propose you as an additional delegate for this responsibility."

/-- The fixed `statusMap` from status keyword to label. -/
def statusMap (s : String) : Option String :=
  if s = "approved-for-milestone" then some "status/approved-for-milestone"
  else if s = "in-progress" then some "status/in-progress"
  else if s = "in-review" then some "status/in-review"
  else none

/-- `determineMaintainers` of the milestonestatus plugin (same body as the
milestone plugin's). -/
def determineMaintainers (gc : GithubClient) (milestone : plugins.Milestone)
    (org : String) : Call × Except GHError (List github.TeamMember) :=
  if milestone.MaintainersTeam ≠ "" then
    (.listTeamMembersBySlug org milestone.MaintainersTeam github.RoleAll,
      gc.listTeamMembersBySlug org milestone.MaintainersTeam github.RoleAll)
  else
    (.listTeamMembersByID org milestone.MaintainersID github.RoleAll,
      gc.listTeamMembersByID org milestone.MaintainersID github.RoleAll)

/-- One iteration of the `for _, statusMatch := range statusMatches` loop:
an unrecognized keyword is skipped; a recognized one produces an `AddLabel`
call, whose failure is logged and swallowed. -/
def statusStep (gc : GithubClient) (org repo : String) (number : Int)
    (acc : List Call × List LogEntry) (statusMatch : String) :
    List Call × List LogEntry :=
  match statusMap (trimSpace statusMatch) with
  | none => acc
  | some sLabel =>
    match gc.addLabel org repo number sLabel with
    | none => (acc.1 ++ [.addLabel org repo number sLabel], acc.2)
    | some err =>
      (acc.1 ++ [.addLabel org repo number sLabel],
        acc.2 ++ [⟨err, "Error adding the label \"" ++ sLabel ++ "\" to " ++
          org ++ "/" ++ repo ++ "#" ++ toString number ++ "."⟩])

/-- `handle` of the milestonestatus plugin.  Note that its authorization
rejection posts the message text directly, without the quoted-reply
formatting used by the milestone plugin. -/
def handle (gc : GithubClient) (e : github.GenericCommentEvent)
    (repoMilestone : String → Option plugins.Milestone) : HandleResult :=
  if e.action ≠ github.GenericCommentActionCreated then ⟨[], [], none⟩
  else
    let statusMatches := statusFindAll e.body
    if statusMatches = [] then ⟨[], [], none⟩
    else
      let org := e.repoOwnerLogin
      let repo := e.repoName
      let milestone := effectiveMilestone repoMilestone org repo
      let det := determineMaintainers gc milestone org
      match det.2 with
      | .error err => ⟨[det.1], [], some err⟩
      | .ok milestoneMaintainers =>
        let found := milestoneMaintainers.any fun person =>
          goToLower person.login == goToLower e.userLogin
        if !found then
          let msg := mustBeAuthorizedMsg org milestone.MaintainersTeam org
            milestone.MaintainersTeam milestone.MaintainersFriendlyName
          ⟨[det.1, .createComment org repo e.number msg], [],
            gc.createComment org repo e.number msg⟩
        else
          let r := statusMatches.foldl (statusStep gc org repo e.number) ([det.1], [])
          ⟨r.1, r.2, none⟩

/-- The call a recognized status keyword produces, `none` for an unrecognized
one. -/
def addLabelCall (org repo : String) (number : Int) (statusMatch : String) :
    Option Call :=
  (statusMap (trimSpace statusMatch)).map fun l => Call.addLabel org repo number l

/-- The log entry a failed `AddLabel` call produces. -/
def addLabelLog (gc : GithubClient) (org repo : String) (number : Int)
    (statusMatch : String) : Option LogEntry :=
  (statusMap (trimSpace statusMatch)).bind fun l =>
    (gc.addLabel org repo number l).map fun err =>
      (⟨err, "Error adding the label \"" ++ l ++ "\" to " ++ org ++ "/" ++ repo ++
        "#" ++ toString number ++ "."⟩ : LogEntry)

end milestonestatus

/-! ### Concrete inputs used to witness the theorems -/

/-- A client on which every operation succeeds. -/
def gcOK : GithubClient where
  createComment := fun _ _ _ _ => none
  clearMilestone := fun _ _ _ => none
  setMilestone := fun _ _ _ _ => none
  addLabel := fun _ _ _ _ => none
  listTeamMembersBySlug := fun _ _ _ => .ok [⟨"Alice"⟩]
  listTeamMembersByID := fun _ _ _ => .ok [⟨"Alice"⟩]
  listMilestones := fun _ _ => .ok [⟨"v1.10", 42⟩, ⟨"v1.9", 41⟩]

/-- Team-member listing fails. -/
def gcTeamErr : GithubClient :=
  { gcOK with
    listTeamMembersBySlug := fun _ _ _ => .error "teamfail"
    listTeamMembersByID := fun _ _ _ => .error "teamfail" }

/-- Milestone listing fails. -/
def gcMsErr : GithubClient :=
  { gcOK with listMilestones := fun _ _ => .error "msfail" }

/-- Every mutation fails. -/
def gcMutErr : GithubClient :=
  { gcOK with
    clearMilestone := fun _ _ _ => some "clearfail"
    setMilestone := fun _ _ _ _ => some "setfail"
    addLabel := fun _ _ _ _ => some "labelfail" }

/-- Comment posting fails. -/
def gcPostErr : GithubClient :=
  { gcOK with createComment := fun _ _ _ _ => some "postfail" }

/-- A configuration with a dedicated entry for `k/k` and a global default
whose slug is empty (so it resolves by id). -/
def cfg1 : String → Option plugins.Milestone := fun k =>
  if k = "k/k" then some ⟨7, "mm", "lead"⟩
  else if k = "" then some ⟨9, "", "global-lead"⟩
  else none

/-- A base event from `k/k` by the (case-insensitively) authorized `alice`. -/
def ev1 : github.GenericCommentEvent where
  action := "created"
  body := "/milestone v1.10"
  userLogin := "alice"
  repoOwnerLogin := "k"
  repoName := "k"
  number := 3
  htmlURL := "http://u/1"

/-- The full text the milestone handler posts on an authorization
rejection. -/
def milestone.authRejectionText (e : github.GenericCommentEvent)
    (d : plugins.Milestone) : String :=
  plugins.FormatResponseRaw e.body e.htmlURL e.userLogin
    (milestone.mustBeAuthorizedMsg e.repoOwnerLogin d.MaintainersTeam
      e.repoOwnerLogin d.MaintainersTeam d.MaintainersFriendlyName)

/-- The full text the milestone handler posts on an invalid-milestone
rejection. -/
def milestone.invalidRejectionText (e : github.GenericCommentEvent)
    (ms : List github.Milestone) : String :=
  plugins.FormatResponseRaw e.body e.htmlURL e.userLogin
    (milestone.invalidMilestoneMsg
      (String.intercalate ", " (milestone.sortedOptions (milestone.BuildMilestoneMap ms)))
      milestone.clearKeyword)

/-- The text the milestonestatus handler posts on an authorization rejection:
the bare message, with no quoted-reply formatting. -/
def milestonestatus.authRejectionText (e : github.GenericCommentEvent)
    (d : plugins.Milestone) : String :=
  milestonestatus.mustBeAuthorizedMsg e.repoOwnerLogin d.MaintainersTeam
    e.repoOwnerLogin d.MaintainersTeam d.MaintainersFriendlyName

/-- `ev1` with the clear keyword. -/
def evClear : github.GenericCommentEvent := { ev1 with body := "/milestone clear" }

/-- `ev1` with a milestone title absent from the live list. -/
def evWrong : github.GenericCommentEvent := { ev1 with body := "/milestone v2" }

/-- `ev1` from an unauthorized user. -/
def evBob : github.GenericCommentEvent := { ev1 with userLogin := "bob" }

/-- A status comment with one recognized and one unrecognized keyword. -/
def evStatus : github.GenericCommentEvent :=
  { ev1 with body := "/status in-progress\n/status bogus-keyword" }

/-- `evStatus` from an unauthorized user. -/
def evStatusBob : github.GenericCommentEvent := { evStatus with userLogin := "bob" }

/-- An event whose body holds no trigger. -/
def evNone : github.GenericCommentEvent := { ev1 with body := "hello" }

/-- An edited event. -/
def evEdited : github.GenericCommentEvent := { ev1 with action := "edited" }

/-- An event from a repository with no dedicated configuration entry, falling
back to the default descriptor of `cfg1` (which resolves by id). -/
def evOther : github.GenericCommentEvent :=
  { ev1 with repoOwnerLogin := "o", repoName := "r" }

/-- A created event none of whose lines matches the trigger pattern on its
own, although the multiline regex matches the whole body (its `\s+` crosses
the newline). -/
def evCrossLine : github.GenericCommentEvent := { ev1 with body := "/milestone\nfoo" }

/-- `text` mentions `frag`: `frag` occurs contiguously inside `text`. -/
def Mentions (text frag : String) : Prop := frag.data <:+: text.data

instance mentionsDecidable (text frag : String) : Decidable (Mentions text frag) :=
  inferInstanceAs (Decidable (frag.data <:+: text.data))

/-! ### Helper lemmas -/

theorem str_data_append (s t : String) : (s ++ t).data = s.data ++ t.data := rfl

theorem mentions_self (s : String) : Mentions s s := List.infix_rfl

theorem mentions_append_left {a f : String} (h : Mentions a f) (b : String) :
    Mentions (a ++ b) f := by
  unfold Mentions at h ⊢
  rw [str_data_append]
  exact h.trans (List.prefix_append a.data b.data).isInfix

theorem mentions_append_right {b f : String} (a : String) (h : Mentions b f) :
    Mentions (a ++ b) f := by
  unfold Mentions at h ⊢
  rw [str_data_append]
  exact h.trans (List.suffix_append a.data b.data).isInfix

theorem mentions_trans {a b c : String} (h1 : Mentions a b) (h2 : Mentions b c) :
    Mentions a c := h2.trans h1

theorem formatResponseRaw_mentions (body htmlURL login reply : String) :
    Mentions (plugins.FormatResponseRaw body htmlURL login reply) body ∧
      Mentions (plugins.FormatResponseRaw body htmlURL login reply) htmlURL ∧
      Mentions (plugins.FormatResponseRaw body htmlURL login reply) login ∧
      Mentions (plugins.FormatResponseRaw body htmlURL login reply) reply := by
  unfold plugins.FormatResponseRaw
  refine ⟨mentions_append_right _ (mentions_self _), ?_, ?_, ?_⟩
  · apply mentions_append_left
    apply mentions_append_left
    exact mentions_append_right _ (mentions_self _)
  · iterate 6 apply mentions_append_left
    exact mentions_append_right _ (mentions_self _)
  · iterate 4 apply mentions_append_left
    exact mentions_append_right _ (mentions_self _)

theorem milestone_mustBeAuthorized_mentions (org team org2 team2 friendly : String) :
    Mentions (milestone.mustBeAuthorizedMsg org team org2 team2 friendly) team ∧
      Mentions (milestone.mustBeAuthorizedMsg org team org2 team2 friendly) friendly := by
  unfold milestone.mustBeAuthorizedMsg
  constructor
  · iterate 8 apply mentions_append_left
    exact mentions_append_right _ (mentions_self _)
  · apply mentions_append_left
    exact mentions_append_right _ (mentions_self _)

theorem milestonestatus_mustBeAuthorized_mentions (org team org2 team2 friendly : String) :
    Mentions (milestonestatus.mustBeAuthorizedMsg org team org2 team2 friendly) team ∧
      Mentions (milestonestatus.mustBeAuthorizedMsg org team org2 team2 friendly) friendly := by
  unfold milestonestatus.mustBeAuthorizedMsg
  constructor
  · iterate 8 apply mentions_append_left
    exact mentions_append_right _ (mentions_self _)
  · apply mentions_append_left
    exact mentions_append_right _ (mentions_self _)

theorem invalidMilestone_mentions (list clearKw : String) :
    Mentions (milestone.invalidMilestoneMsg list clearKw) list ∧
      Mentions (milestone.invalidMilestoneMsg list clearKw) clearKw := by
  unfold milestone.invalidMilestoneMsg
  constructor
  · iterate 3 apply mentions_append_left
    exact mentions_append_right _ (mentions_self _)
  · apply mentions_append_left
    exact mentions_append_right _ (mentions_self _)

theorem milestone_determineMaintainers_fst (gc : GithubClient)
    (m : plugins.Milestone) (org : String) :
    (milestone.determineMaintainers gc m org).1 =
      if m.MaintainersTeam ≠ "" then
        Call.listTeamMembersBySlug org m.MaintainersTeam github.RoleAll
      else Call.listTeamMembersByID org m.MaintainersID github.RoleAll := by
  unfold milestone.determineMaintainers
  split <;> rfl

theorem milestonestatus_determineMaintainers_fst (gc : GithubClient)
    (m : plugins.Milestone) (org : String) :
    (milestonestatus.determineMaintainers gc m org).1 =
      if m.MaintainersTeam ≠ "" then
        Call.listTeamMembersBySlug org m.MaintainersTeam github.RoleAll
      else Call.listTeamMembersByID org m.MaintainersID github.RoleAll := by
  unfold milestonestatus.determineMaintainers
  split <;> rfl

theorem milestone_determineMaintainers_fst_not_mutation (gc : GithubClient)
    (m : plugins.Milestone) (org : String) :
    (milestone.determineMaintainers gc m org).1.isMutation = false := by
  rw [milestone_determineMaintainers_fst]
  split <;> rfl

theorem milestone_determineMaintainers_fst_not_comment (gc : GithubClient)
    (m : plugins.Milestone) (org : String) :
    (milestone.determineMaintainers gc m org).1.isCreateComment = false := by
  rw [milestone_determineMaintainers_fst]
  split <;> rfl

theorem milestonestatus_determineMaintainers_fst_not_mutation (gc : GithubClient)
    (m : plugins.Milestone) (org : String) :
    (milestonestatus.determineMaintainers gc m org).1.isMutation = false := by
  rw [milestonestatus_determineMaintainers_fst]
  split <;> rfl

theorem milestonestatus_determineMaintainers_fst_not_comment (gc : GithubClient)
    (m : plugins.Milestone) (org : String) :
    (milestonestatus.determineMaintainers gc m org).1.isCreateComment = false := by
  rw [milestonestatus_determineMaintainers_fst]
  split <;> rfl

/-! ### Path-shape lemmas for `milestone.handle` -/

namespace milestone

theorem handle_notCreated (gc : GithubClient) (e : github.GenericCommentEvent)
    (cfg : String → Option plugins.Milestone)
    (h : e.action ≠ github.GenericCommentActionCreated) :
    handle gc e cfg = ⟨[], [], none⟩ := by
  unfold handle
  rw [if_pos h]

theorem handle_noMatch (gc : GithubClient) (e : github.GenericCommentEvent)
    (cfg : String → Option plugins.Milestone)
    (ha : e.action = github.GenericCommentActionCreated)
    (hm : milestoneFindSubmatch e.body = none) :
    handle gc e cfg = ⟨[], [], none⟩ := by
  unfold handle
  rw [if_neg (by simp [ha]), hm]

theorem handle_detError (gc : GithubClient) (e : github.GenericCommentEvent)
    (cfg : String → Option plugins.Milestone) (arg : String) (err : GHError)
    (ha : e.action = github.GenericCommentActionCreated)
    (hm : milestoneFindSubmatch e.body = some arg)
    (hd : (determineMaintainers gc (effectiveMilestone cfg e.repoOwnerLogin e.repoName)
      e.repoOwnerLogin).2 = .error err) :
    handle gc e cfg =
      ⟨[(determineMaintainers gc (effectiveMilestone cfg e.repoOwnerLogin e.repoName)
        e.repoOwnerLogin).1], [], some err⟩ := by
  unfold handle
  rw [if_neg (by simp [ha]), hm]
  simp only [hd]

theorem handle_unauthorized (gc : GithubClient) (e : github.GenericCommentEvent)
    (cfg : String → Option plugins.Milestone) (arg : String)
    (members : List github.TeamMember)
    (ha : e.action = github.GenericCommentActionCreated)
    (hm : milestoneFindSubmatch e.body = some arg)
    (hd : (determineMaintainers gc (effectiveMilestone cfg e.repoOwnerLogin e.repoName)
      e.repoOwnerLogin).2 = .ok members)
    (hauth : (members.any fun person =>
      github.NormLogin person.login == github.NormLogin e.userLogin) = false) :
    handle gc e cfg =
      ⟨[(determineMaintainers gc (effectiveMilestone cfg e.repoOwnerLogin e.repoName)
          e.repoOwnerLogin).1,
        .createComment e.repoOwnerLogin e.repoName e.number
          (plugins.FormatResponseRaw e.body e.htmlURL e.userLogin
            (mustBeAuthorizedMsg e.repoOwnerLogin
              (effectiveMilestone cfg e.repoOwnerLogin e.repoName).MaintainersTeam
              e.repoOwnerLogin
              (effectiveMilestone cfg e.repoOwnerLogin e.repoName).MaintainersTeam
              (effectiveMilestone cfg e.repoOwnerLogin e.repoName).MaintainersFriendlyName))],
        [],
        gc.createComment e.repoOwnerLogin e.repoName e.number
          (plugins.FormatResponseRaw e.body e.htmlURL e.userLogin
            (mustBeAuthorizedMsg e.repoOwnerLogin
              (effectiveMilestone cfg e.repoOwnerLogin e.repoName).MaintainersTeam
              e.repoOwnerLogin
              (effectiveMilestone cfg e.repoOwnerLogin e.repoName).MaintainersTeam
              (effectiveMilestone cfg e.repoOwnerLogin e.repoName).MaintainersFriendlyName))⟩ := by
  unfold handle
  rw [if_neg (by simp [ha]), hm]
  simp [hd, hauth]

theorem handle_msError (gc : GithubClient) (e : github.GenericCommentEvent)
    (cfg : String → Option plugins.Milestone) (arg : String)
    (members : List github.TeamMember) (err : GHError)
    (ha : e.action = github.GenericCommentActionCreated)
    (hm : milestoneFindSubmatch e.body = some arg)
    (hd : (determineMaintainers gc (effectiveMilestone cfg e.repoOwnerLogin e.repoName)
      e.repoOwnerLogin).2 = .ok members)
    (hauth : (members.any fun person =>
      github.NormLogin person.login == github.NormLogin e.userLogin) = true)
    (hms : gc.listMilestones e.repoOwnerLogin e.repoName = .error err) :
    handle gc e cfg =
      ⟨[(determineMaintainers gc (effectiveMilestone cfg e.repoOwnerLogin e.repoName)
          e.repoOwnerLogin).1, .listMilestones e.repoOwnerLogin e.repoName],
        [⟨err, "Error listing the milestones in the " ++ e.repoOwnerLogin ++ "/" ++
          e.repoName ++ " repo"⟩],
        some err⟩ := by
  unfold handle
  rw [if_neg (by simp [ha]), hm]
  simp [hd, hauth, hms]

theorem handle_clear (gc : GithubClient) (e : github.GenericCommentEvent)
    (cfg : String → Option plugins.Milestone)
    (members : List github.TeamMember) (ms : List github.Milestone)
    (ha : e.action = github.GenericCommentActionCreated)
    (hm : milestoneFindSubmatch e.body = some clearKeyword)
    (hd : (determineMaintainers gc (effectiveMilestone cfg e.repoOwnerLogin e.repoName)
      e.repoOwnerLogin).2 = .ok members)
    (hauth : (members.any fun person =>
      github.NormLogin person.login == github.NormLogin e.userLogin) = true)
    (hms : gc.listMilestones e.repoOwnerLogin e.repoName = .ok ms) :
    handle gc e cfg =
      ⟨[(determineMaintainers gc (effectiveMilestone cfg e.repoOwnerLogin e.repoName)
          e.repoOwnerLogin).1, .listMilestones e.repoOwnerLogin e.repoName,
        .clearMilestone e.repoOwnerLogin e.repoName e.number],
        match gc.clearMilestone e.repoOwnerLogin e.repoName e.number with
        | none => []
        | some err =>
          [⟨err, "Error clearing the milestone for " ++ e.repoOwnerLogin ++ "/" ++
            e.repoName ++ "#" ++ toString e.number ++ "."⟩],
        none⟩ := by
  unfold handle
  rw [if_neg (by simp [ha]), hm]
  simp [hd, hauth, hms]

theorem handle_invalid (gc : GithubClient) (e : github.GenericCommentEvent)
    (cfg : String → Option plugins.Milestone) (arg : String)
    (members : List github.TeamMember) (ms : List github.Milestone)
    (ha : e.action = github.GenericCommentActionCreated)
    (hm : milestoneFindSubmatch e.body = some arg)
    (hd : (determineMaintainers gc (effectiveMilestone cfg e.repoOwnerLogin e.repoName)
      e.repoOwnerLogin).2 = .ok members)
    (hauth : (members.any fun person =>
      github.NormLogin person.login == github.NormLogin e.userLogin) = true)
    (hms : gc.listMilestones e.repoOwnerLogin e.repoName = .ok ms)
    (hnotclear : arg ≠ clearKeyword)
    (hmiss : mapLookup (BuildMilestoneMap ms) arg = none) :
    handle gc e cfg =
      ⟨[(determineMaintainers gc (effectiveMilestone cfg e.repoOwnerLogin e.repoName)
          e.repoOwnerLogin).1, .listMilestones e.repoOwnerLogin e.repoName,
        .createComment e.repoOwnerLogin e.repoName e.number
          (plugins.FormatResponseRaw e.body e.htmlURL e.userLogin
            (invalidMilestoneMsg
              (String.intercalate ", " (sortedOptions (BuildMilestoneMap ms)))
              clearKeyword))],
        [],
        gc.createComment e.repoOwnerLogin e.repoName e.number
          (plugins.FormatResponseRaw e.body e.htmlURL e.userLogin
            (invalidMilestoneMsg
              (String.intercalate ", " (sortedOptions (BuildMilestoneMap ms)))
              clearKeyword))⟩ := by
  unfold handle
  rw [if_neg (by simp [ha]), hm]
  simp [hd, hauth, hms, hnotclear, hmiss]

theorem handle_set (gc : GithubClient) (e : github.GenericCommentEvent)
    (cfg : String → Option plugins.Milestone) (arg : String)
    (members : List github.TeamMember) (ms : List github.Milestone) (num : Int)
    (ha : e.action = github.GenericCommentActionCreated)
    (hm : milestoneFindSubmatch e.body = some arg)
    (hd : (determineMaintainers gc (effectiveMilestone cfg e.repoOwnerLogin e.repoName)
      e.repoOwnerLogin).2 = .ok members)
    (hauth : (members.any fun person =>
      github.NormLogin person.login == github.NormLogin e.userLogin) = true)
    (hms : gc.listMilestones e.repoOwnerLogin e.repoName = .ok ms)
    (hnotclear : arg ≠ clearKeyword)
    (hhit : mapLookup (BuildMilestoneMap ms) arg = some num) :
    handle gc e cfg =
      ⟨[(determineMaintainers gc (effectiveMilestone cfg e.repoOwnerLogin e.repoName)
          e.repoOwnerLogin).1, .listMilestones e.repoOwnerLogin e.repoName,
        .setMilestone e.repoOwnerLogin e.repoName e.number num],
        match gc.setMilestone e.repoOwnerLogin e.repoName e.number num with
        | none => []
        | some err =>
          [⟨err, "Error adding the milestone " ++ arg ++ " to " ++ e.repoOwnerLogin ++
            "/" ++ e.repoName ++ "#" ++ toString e.number ++ "."⟩],
        none⟩ := by
  unfold handle
  rw [if_neg (by simp [ha]), hm]
  simp [hd, hauth, hms, hnotclear, hhit]

end milestone

/-! ### Path-shape lemmas for `milestonestatus.handle` -/

namespace milestonestatus

theorem status_handle_notCreated (gc : GithubClient) (e : github.GenericCommentEvent)
    (cfg : String → Option plugins.Milestone)
    (h : e.action ≠ github.GenericCommentActionCreated) :
    handle gc e cfg = ⟨[], [], none⟩ := by
  unfold handle
  rw [if_pos h]

theorem status_handle_noMatch (gc : GithubClient) (e : github.GenericCommentEvent)
    (cfg : String → Option plugins.Milestone)
    (ha : e.action = github.GenericCommentActionCreated)
    (hm : statusFindAll e.body = []) :
    handle gc e cfg = ⟨[], [], none⟩ := by
  unfold handle
  rw [if_neg (by simp [ha])]
  simp [hm]

theorem status_handle_detError (gc : GithubClient) (e : github.GenericCommentEvent)
    (cfg : String → Option plugins.Milestone) (err : GHError)
    (ha : e.action = github.GenericCommentActionCreated)
    (hm : statusFindAll e.body ≠ [])
    (hd : (determineMaintainers gc (effectiveMilestone cfg e.repoOwnerLogin e.repoName)
      e.repoOwnerLogin).2 = .error err) :
    handle gc e cfg =
      ⟨[(determineMaintainers gc (effectiveMilestone cfg e.repoOwnerLogin e.repoName)
        e.repoOwnerLogin).1], [], some err⟩ := by
  unfold handle
  rw [if_neg (by simp [ha])]
  simp [hm, hd]

theorem status_handle_unauthorized (gc : GithubClient) (e : github.GenericCommentEvent)
    (cfg : String → Option plugins.Milestone)
    (members : List github.TeamMember)
    (ha : e.action = github.GenericCommentActionCreated)
    (hm : statusFindAll e.body ≠ [])
    (hd : (determineMaintainers gc (effectiveMilestone cfg e.repoOwnerLogin e.repoName)
      e.repoOwnerLogin).2 = .ok members)
    (hauth : (members.any fun person =>
      goToLower person.login == goToLower e.userLogin) = false) :
    handle gc e cfg =
      ⟨[(determineMaintainers gc (effectiveMilestone cfg e.repoOwnerLogin e.repoName)
          e.repoOwnerLogin).1,
        .createComment e.repoOwnerLogin e.repoName e.number
          (mustBeAuthorizedMsg e.repoOwnerLogin
            (effectiveMilestone cfg e.repoOwnerLogin e.repoName).MaintainersTeam
            e.repoOwnerLogin
            (effectiveMilestone cfg e.repoOwnerLogin e.repoName).MaintainersTeam
            (effectiveMilestone cfg e.repoOwnerLogin e.repoName).MaintainersFriendlyName)],
        [],
        gc.createComment e.repoOwnerLogin e.repoName e.number
          (mustBeAuthorizedMsg e.repoOwnerLogin
            (effectiveMilestone cfg e.repoOwnerLogin e.repoName).MaintainersTeam
            e.repoOwnerLogin
            (effectiveMilestone cfg e.repoOwnerLogin e.repoName).MaintainersTeam
            (effectiveMilestone cfg e.repoOwnerLogin e.repoName).MaintainersFriendlyName)⟩ := by
  unfold handle
  rw [if_neg (by simp [ha])]
  simp [hm, hd, hauth]

theorem foldl_statusStep (gc : GithubClient) (org repo : String) (number : Int)
    (ms : List String) (c0 : List Call) (l0 : List LogEntry) :
    ms.foldl (statusStep gc org repo number) (c0, l0) =
      (c0 ++ ms.filterMap (addLabelCall org repo number),
        l0 ++ ms.filterMap (addLabelLog gc org repo number)) := by
  induction ms generalizing c0 l0 with
  | nil => simp
  | cons m rest ih =>
    rw [List.foldl_cons, List.filterMap_cons, List.filterMap_cons]
    cases h : statusMap (trimSpace m) with
    | none =>
      have hstep : statusStep gc org repo number (c0, l0) m = (c0, l0) := by
        simp [statusStep, h]
      rw [hstep, ih]
      simp [addLabelCall, addLabelLog, h]
    | some sLabel =>
      cases hl : gc.addLabel org repo number sLabel with
      | none =>
        have hstep : statusStep gc org repo number (c0, l0) m =
            (c0 ++ [Call.addLabel org repo number sLabel], l0) := by
          simp [statusStep, h, hl]
        rw [hstep, ih]
        simp [addLabelCall, addLabelLog, h, hl, List.append_assoc]
      | some err =>
        have hstep : statusStep gc org repo number (c0, l0) m =
            (c0 ++ [Call.addLabel org repo number sLabel],
              l0 ++ [⟨err, "Error adding the label \"" ++ sLabel ++ "\" to " ++ org ++
                "/" ++ repo ++ "#" ++ toString number ++ "."⟩]) := by
          simp [statusStep, h, hl]
        rw [hstep, ih]
        simp [addLabelCall, addLabelLog, h, hl, List.append_assoc]

theorem handle_authorized (gc : GithubClient) (e : github.GenericCommentEvent)
    (cfg : String → Option plugins.Milestone)
    (members : List github.TeamMember)
    (ha : e.action = github.GenericCommentActionCreated)
    (hm : statusFindAll e.body ≠ [])
    (hd : (determineMaintainers gc (effectiveMilestone cfg e.repoOwnerLogin e.repoName)
      e.repoOwnerLogin).2 = .ok members)
    (hauth : (members.any fun person =>
      goToLower person.login == goToLower e.userLogin) = true) :
    handle gc e cfg =
      ⟨(determineMaintainers gc (effectiveMilestone cfg e.repoOwnerLogin e.repoName)
          e.repoOwnerLogin).1 ::
        (statusFindAll e.body).filterMap (addLabelCall e.repoOwnerLogin e.repoName e.number),
        (statusFindAll e.body).filterMap (addLabelLog gc e.repoOwnerLogin e.repoName e.number),
        none⟩ := by
  unfold handle
  rw [if_neg (by simp [ha])]
  simp [hm, hd, hauth, foldl_statusStep]

end milestonestatus

/-! ### Milestone-map lemmas -/

namespace milestone

theorem mapLookup_cons_pos {p : String × Int} {rest : List (String × Int)}
    {t : String} (h : (p.1 == t) = true) :
    mapLookup (p :: rest) t = some p.2 := by
  simp [mapLookup, List.find?_cons, h]

theorem mapLookup_cons_neg {p : String × Int} {rest : List (String × Int)}
    {t : String} (h : (p.1 == t) = false) :
    mapLookup (p :: rest) t = mapLookup rest t := by
  simp [mapLookup, List.find?_cons, h]

theorem mapLookup_mapInsert (m : List (String × Int)) (k : String) (v : Int)
    (t : String) :
    mapLookup (mapInsert m k v) t = if t = k then some v else mapLookup m t := by
  induction m with
  | nil =>
    show mapLookup [(k, v)] t = _
    by_cases h : t = k
    · subst h
      rw [mapLookup_cons_pos (by simp), if_pos rfl]
    · rw [mapLookup_cons_neg (by simp [Ne.symm h]), if_neg h]
  | cons p rest ih =>
    show mapLookup (if p.1 = k then (k, v) :: rest else p :: mapInsert rest k v) t = _
    by_cases hpk : p.1 = k
    · rw [if_pos hpk]
      by_cases htk : t = k
      · subst htk
        rw [mapLookup_cons_pos (by simp), if_pos rfl]
      · rw [mapLookup_cons_neg (by simp [Ne.symm htk]), if_neg htk,
          mapLookup_cons_neg (by simp [hpk, Ne.symm htk])]
  
    · rw [if_neg hpk]
      by_cases hpt : p.1 = t
      · have htk : ¬t = k := fun hh => hpk (by rw [hpt, hh])
        rw [mapLookup_cons_pos (by simp [hpt]), if_neg htk,
          mapLookup_cons_pos (by simp [hpt])]
      · rw [mapLookup_cons_neg (by simp [hpt]), ih]
        by_cases htk : t = k
        · simp [htk]
        · rw [if_neg htk, if_neg htk, mapLookup_cons_neg (by simp [hpt])]

theorem BuildMilestoneMap_append_singleton (L : List github.Milestone)
    (x : github.Milestone) :
    BuildMilestoneMap (L ++ [x]) = mapInsert (BuildMilestoneMap L) x.title x.number := by
  unfold BuildMilestoneMap
  rw [List.foldl_append]
  rfl

/-- Go map writes are last-write-wins: a lookup in the built map returns the
number of the last milestone in the list carrying that title. -/
theorem mapLookup_BuildMilestoneMap (L : List github.Milestone) (t : String) :
    mapLookup (BuildMilestoneMap L) t =
      ((L.filter fun ms => ms.title == t).getLast?).map fun ms => ms.number := by
  induction L using List.reverseRecOn with
  | nil => rfl
  | append_singleton L x ih =>
    rw [BuildMilestoneMap_append_singleton, mapLookup_mapInsert, List.filter_append]
    by_cases h : x.title = t
    · rw [if_pos h.symm]
      have hx : List.filter (fun ms => ms.title == t) [x] = [x] := by simp [h]
      rw [hx, List.getLast?_concat]
      simp
    · rw [if_neg fun hh => h hh.symm]
      have hx : List.filter (fun ms => ms.title == t) [x] = [] := by simp [h]
      rw [hx, List.append_nil, ih]

theorem mem_keys_mapInsert (m : List (String × Int)) (k : String) (v : Int)
    (t : String) :
    t ∈ (mapInsert m k v).map Prod.fst ↔ t = k ∨ t ∈ m.map Prod.fst := by
  induction m with
  | nil => simp [mapInsert]
  | cons p rest ih =>
    show t ∈ (if p.1 = k then (k, v) :: rest else p :: mapInsert rest k v).map Prod.fst ↔ _
    by_cases hpk : p.1 = k
    · rw [if_pos hpk]
      simp only [List.map_cons, List.mem_cons, hpk]
      tauto
    · rw [if_neg hpk]
      simp only [List.map_cons, List.mem_cons, ih]
      tauto

/-- The keys of the built map are exactly the titles occurring in the
milestone list. -/
theorem mem_keys_BuildMilestoneMap (L : List github.Milestone) (t : String) :
    t ∈ (BuildMilestoneMap L).map Prod.fst ↔ t ∈ L.map github.Milestone.title := by
  induction L using List.reverseRecOn with
  | nil => simp [BuildMilestoneMap]
  | append_singleton L x ih =>
    rw [BuildMilestoneMap_append_singleton]
    rw [mem_keys_mapInsert]
    simp only [List.map_append, List.mem_append, List.map_cons, List.map_nil,
      List.mem_singleton, ih]
    tauto

theorem sortedOptions_sorted (m : List (String × Int)) :
    List.Sorted (· ≤ ·) (sortedOptions m) :=
  List.sorted_insertionSort _ _

theorem sortedOptions_perm (m : List (String × Int)) :
    List.Perm (sortedOptions m) (m.map fun p => "`" ++ p.1 ++ "`") :=
  List.perm_insertionSort _ _

end milestone

/-- The Boolean membership test of the milestone handler agrees with
existential membership of the normalized login. -/
theorem normAny_iff (members : List github.TeamMember) (login : String) :
    ((members.any fun person =>
      github.NormLogin person.login == github.NormLogin login) = true) ↔
      ∃ p ∈ members, github.NormLogin p.login = github.NormLogin login := by
  simp [List.any_eq_true]

/-- The Boolean membership test of the milestonestatus handler agrees with the
same existential (its `strings.ToLower` is the same normalization). -/
theorem lowerAny_iff (members : List github.TeamMember) (login : String) :
    ((members.any fun person =>
      goToLower person.login == goToLower login) = true) ↔
      ∃ p ∈ members, github.NormLogin p.login = github.NormLogin login := by
  simp [List.any_eq_true, github.NormLogin]

theorem addLabelCall_shape {org repo : String} {n : Int} {m : String} {c : Call}
    (h : milestonestatus.addLabelCall org repo n m = some c) :
    ∃ l, milestonestatus.statusMap (trimSpace m) = some l ∧
      c = Call.addLabel org repo n l := by
  unfold milestonestatus.addLabelCall at h
  cases hs : milestonestatus.statusMap (trimSpace m) with
  | none => rw [hs] at h; simp at h
  | some l =>
    rw [hs] at h
    simp only [Option.map_some', Option.some_inj] at h
    exact ⟨l, rfl, h.symm⟩

/-- Whatever path the milestone handler takes after matching, its first API
call is the membership-listing call chosen by `determineMaintainers`. -/
theorem milestone_handle_calls_head (gc : GithubClient)
    (e : github.GenericCommentEvent) (cfg : String → Option plugins.Milestone)
    (arg : String)
    (ha : e.action = github.GenericCommentActionCreated)
    (hm : milestoneFindSubmatch e.body = some arg) :
    (milestone.handle gc e cfg).calls.head? =
      some (milestone.determineMaintainers gc
        (effectiveMilestone cfg e.repoOwnerLogin e.repoName) e.repoOwnerLogin).1 := by
  unfold milestone.handle
  rw [if_neg (by simp [ha]), hm]
  cases hd : (milestone.determineMaintainers gc
      (effectiveMilestone cfg e.repoOwnerLogin e.repoName) e.repoOwnerLogin).2 with
  | error err => simp [hd]
  | ok members =>
    simp only [hd]
    by_cases hf : (members.any fun person =>
        github.NormLogin person.login == github.NormLogin e.userLogin) = true
    · simp only [hf]
      cases hms : gc.listMilestones e.repoOwnerLogin e.repoName with
      | error err => simp [hms]
      | ok milestones =>
        simp only [hms]
        by_cases hc : arg = milestone.clearKeyword
        · simp [hc]
        · cases hl : milestone.mapLookup (milestone.BuildMilestoneMap milestones) arg with
          | none => simp [hc, hl]
          | some num => simp [hc, hl]
    · rw [Bool.not_eq_true] at hf
      simp [hf]

/-- Same property for the milestonestatus handler. -/
theorem milestonestatus_handle_calls_head (gc : GithubClient)
    (e : github.GenericCommentEvent) (cfg : String → Option plugins.Milestone)
    (ha : e.action = github.GenericCommentActionCreated)
    (hm : statusFindAll e.body ≠ []) :
    (milestonestatus.handle gc e cfg).calls.head? =
      some (milestonestatus.determineMaintainers gc
        (effectiveMilestone cfg e.repoOwnerLogin e.repoName) e.repoOwnerLogin).1 := by
  cases hd : (milestonestatus.determineMaintainers gc
      (effectiveMilestone cfg e.repoOwnerLogin e.repoName) e.repoOwnerLogin).2 with
  | error err => rw [milestonestatus.status_handle_detError gc e cfg err ha hm hd]; rfl
  | ok members =>
    by_cases hf : (members.any fun person =>
        goToLower person.login == goToLower e.userLogin) = true
    · rw [milestonestatus.handle_authorized gc e cfg members ha hm hd hf]
      rfl
    · rw [Bool.not_eq_true] at hf
      rw [milestonestatus.status_handle_unauthorized gc e cfg members ha hm hd hf]
      rfl


/-! ### Claim theorems -/

set_option maxRecDepth 4000 in
/-- Claim C9 counterexample: the body "/milestone\nfoo" contains no line
matching the trigger pattern on its own (the trigger regex finds nothing in
any single line), yet the created event is not a no-op: RE2's `\s` includes
the newline, so the program's regex matches the whole body with capture
"foo" and the handler performs API calls. -/
theorem no_trigger_noop_c9_counterexample :
    (∀ line ∈ splitOnNl evCrossLine.body.data,
      milestoneFindSubmatch ⟨line⟩ = none) ∧
    milestoneFindSubmatch evCrossLine.body = some "foo" ∧
    (milestone.handle gcOK evCrossLine cfg1).calls.length = 3 ∧
    (milestone.handle gcOK evCrossLine cfg1).calls ≠ [] := by
  refine ⟨?_, ?_, ?_, ?_⟩ <;> decide

/-- Claim C9 (amended): for every event whose action is not "created", and
for every created event whose body the trigger regex does not match — which,
because `\s` includes the newline, is weaker than "no line matches the
trigger pattern" — the handler performs zero API calls and returns no
error. -/
theorem no_trigger_noop_c9 (gc : GithubClient) (e : github.GenericCommentEvent)
    (cfg : String → Option plugins.Milestone) :
    (e.action ≠ github.GenericCommentActionCreated →
      milestone.handle gc e cfg = ⟨[], [], none⟩ ∧
        milestonestatus.handle gc e cfg = ⟨[], [], none⟩) ∧
    (e.action = github.GenericCommentActionCreated →
      milestoneFindSubmatch e.body = none →
      milestone.handle gc e cfg = ⟨[], [], none⟩) ∧
    (e.action = github.GenericCommentActionCreated →
      statusFindAll e.body = [] →
      milestonestatus.handle gc e cfg = ⟨[], [], none⟩) :=
  ⟨fun h => ⟨milestone.handle_notCreated gc e cfg h,
      milestonestatus.status_handle_notCreated gc e cfg h⟩,
    fun ha h => milestone.handle_noMatch gc e cfg ha h,
    fun ha h => milestonestatus.status_handle_noMatch gc e cfg ha h⟩

/-- Witness for the amended C9: an edited event and a created event without
a trigger are complete no-ops for both handlers. -/
theorem no_trigger_noop_c9_witness :
    milestone.handle gcOK evEdited cfg1 = ⟨[], [], none⟩ ∧
    milestone.handle gcOK evNone cfg1 = ⟨[], [], none⟩ ∧
    milestonestatus.handle gcOK evNone cfg1 = ⟨[], [], none⟩ :=
  ⟨((no_trigger_noop_c9 gcOK evEdited cfg1).1 (by decide)).1,
    (no_trigger_noop_c9 gcOK evNone cfg1).2.1 (by decide) (by decide),
    (no_trigger_noop_c9 gcOK evNone cfg1).2.2 (by decide) (by decide)⟩

/-- Claim C2: for every authorized request whose extracted argument is exactly
"clear" (case-sensitive), the milestone handler bypasses the vocabulary lookup
and routes to the clear-mutation path: it calls clear-milestone and never
set-milestone, regardless of the listed milestones. -/
theorem clear_bypasses_vocabulary_c2 (gc : GithubClient)
    (e : github.GenericCommentEvent) (cfg : String → Option plugins.Milestone)
    (members : List github.TeamMember) (ms : List github.Milestone)
    (ha : e.action = github.GenericCommentActionCreated)
    (hm : milestoneFindSubmatch e.body = some milestone.clearKeyword)
    (hd : (milestone.determineMaintainers gc
      (effectiveMilestone cfg e.repoOwnerLogin e.repoName) e.repoOwnerLogin).2 =
      .ok members)
    (hauth : (members.any fun person =>
      github.NormLogin person.login == github.NormLogin e.userLogin) = true)
    (hms : gc.listMilestones e.repoOwnerLogin e.repoName = .ok ms) :
    Call.clearMilestone e.repoOwnerLogin e.repoName e.number ∈
      (milestone.handle gc e cfg).calls ∧
    ∀ o r n mn, Call.setMilestone o r n mn ∉ (milestone.handle gc e cfg).calls := by
  rw [milestone.handle_clear gc e cfg members ms ha hm hd hauth hms]
  constructor
  · simp
  · intro o r n mn
    show Call.setMilestone o r n mn ∉
      [(milestone.determineMaintainers gc
          (effectiveMilestone cfg e.repoOwnerLogin e.repoName) e.repoOwnerLogin).1,
        .listMilestones e.repoOwnerLogin e.repoName,
        .clearMilestone e.repoOwnerLogin e.repoName e.number]
    rw [milestone_determineMaintainers_fst]
    split <;> simp

/-- Witness for C2: the concrete clear command clears and never sets. -/
theorem clear_bypasses_vocabulary_c2_witness :
    Call.clearMilestone "k" "k" 3 ∈ (milestone.handle gcOK evClear cfg1).calls ∧
    Call.setMilestone "k" "k" 3 42 ∉ (milestone.handle gcOK evClear cfg1).calls :=
  have h := clear_bypasses_vocabulary_c2 gcOK evClear cfg1 [⟨"Alice"⟩]
    [⟨"v1.10", 42⟩, ⟨"v1.9", 41⟩] (by decide) (by decide) rfl (by decide) rfl
  ⟨h.1, h.2 "k" "k" 3 42⟩

/-- Claim C7: if membership listing (either handler) or milestone listing
fails, the handler propagates that error upward and aborts the command with
no mutation call and no feedback comment. -/
theorem resolution_failure_aborts_c7 (gc : GithubClient)
    (e : github.GenericCommentEvent) (cfg : String → Option plugins.Milestone)
    (err : GHError)
    (ha : e.action = github.GenericCommentActionCreated) :
    (∀ arg, milestoneFindSubmatch e.body = some arg →
      (milestone.determineMaintainers gc
        (effectiveMilestone cfg e.repoOwnerLogin e.repoName) e.repoOwnerLogin).2 =
        .error err →
      (milestone.handle gc e cfg).ret = some err ∧
        ∀ c ∈ (milestone.handle gc e cfg).calls,
          c.isMutation = false ∧ c.isCreateComment = false) ∧
    (statusFindAll e.body ≠ [] →
      (milestonestatus.determineMaintainers gc
        (effectiveMilestone cfg e.repoOwnerLogin e.repoName) e.repoOwnerLogin).2 =
        .error err →
      (milestonestatus.handle gc e cfg).ret = some err ∧
        ∀ c ∈ (milestonestatus.handle gc e cfg).calls,
          c.isMutation = false ∧ c.isCreateComment = false) ∧
    (∀ arg members, milestoneFindSubmatch e.body = some arg →
      (milestone.determineMaintainers gc
        (effectiveMilestone cfg e.repoOwnerLogin e.repoName) e.repoOwnerLogin).2 =
        .ok members →
      (members.any fun person =>
        github.NormLogin person.login == github.NormLogin e.userLogin) = true →
      gc.listMilestones e.repoOwnerLogin e.repoName = .error err →
      (milestone.handle gc e cfg).ret = some err ∧
        ∀ c ∈ (milestone.handle gc e cfg).calls,
          c.isMutation = false ∧ c.isCreateComment = false) := by
  refine ⟨fun arg hm hd => ?_, fun hm hd => ?_, fun arg members hm hd hauth hms => ?_⟩
  · rw [milestone.handle_detError gc e cfg arg err ha hm hd]
    refine ⟨rfl, fun c hc => ?_⟩
    have hc : c = (milestone.determineMaintainers gc
        (effectiveMilestone cfg e.repoOwnerLogin e.repoName) e.repoOwnerLogin).1 := by
      simpa using hc
    subst hc
    exact ⟨milestone_determineMaintainers_fst_not_mutation gc _ _,
      milestone_determineMaintainers_fst_not_comment gc _ _⟩
  · rw [milestonestatus.status_handle_detError gc e cfg err ha hm hd]
    refine ⟨rfl, fun c hc => ?_⟩
    have hc : c = (milestonestatus.determineMaintainers gc
        (effectiveMilestone cfg e.repoOwnerLogin e.repoName) e.repoOwnerLogin).1 := by
      simpa using hc
    subst hc
    exact ⟨milestonestatus_determineMaintainers_fst_not_mutation gc _ _,
      milestonestatus_determineMaintainers_fst_not_comment gc _ _⟩
  · rw [milestone.handle_msError gc e cfg arg members err ha hm hd hauth hms]
    refine ⟨rfl, fun c hc => ?_⟩
    have hc : c = (milestone.determineMaintainers gc
        (effectiveMilestone cfg e.repoOwnerLogin e.repoName) e.repoOwnerLogin).1 ∨
        c = Call.listMilestones e.repoOwnerLogin e.repoName := by
      simpa using hc
    rcases hc with hc | hc
    · subst hc
      exact ⟨milestone_determineMaintainers_fst_not_mutation gc _ _,
        milestone_determineMaintainers_fst_not_comment gc _ _⟩
    · subst hc
      exact ⟨rfl, rfl⟩

/-- Witness for C7 at concrete failing clients. -/
theorem resolution_failure_aborts_c7_witness :
    (milestone.handle gcTeamErr ev1 cfg1).ret = some "teamfail" ∧
    (milestonestatus.handle gcTeamErr evStatus cfg1).ret = some "teamfail" ∧
    (milestone.handle gcMsErr ev1 cfg1).ret = some "msfail" :=
  ⟨((resolution_failure_aborts_c7 gcTeamErr ev1 cfg1 "teamfail" (by decide)).1
      "v1.10" (by decide) rfl).1,
    ((resolution_failure_aborts_c7 gcTeamErr evStatus cfg1 "teamfail" (by decide)).2.1
      (by decide) rfl).1,
    ((resolution_failure_aborts_c7 gcMsErr ev1 cfg1 "msfail" (by decide)).2.2
      "v1.10" [⟨"Alice"⟩] (by decide) rfl (by decide) rfl).1⟩

/-- Claim C10: on every rejection path — authorization failure in both
handlers, and invalid milestone in the milestone handler — the handler's
return value is exactly the result of the CreateComment call posting the
feedback. -/
theorem rejection_returns_post_result_c10 (gc : GithubClient)
    (e : github.GenericCommentEvent) (cfg : String → Option plugins.Milestone)
    (ha : e.action = github.GenericCommentActionCreated) :
    (∀ arg members, milestoneFindSubmatch e.body = some arg →
      (milestone.determineMaintainers gc
        (effectiveMilestone cfg e.repoOwnerLogin e.repoName) e.repoOwnerLogin).2 =
        .ok members →
      (members.any fun person =>
        github.NormLogin person.login == github.NormLogin e.userLogin) = false →
      (milestone.handle gc e cfg).ret =
        gc.createComment e.repoOwnerLogin e.repoName e.number
          (milestone.authRejectionText e
            (effectiveMilestone cfg e.repoOwnerLogin e.repoName)) ∧
      Call.createComment e.repoOwnerLogin e.repoName e.number
        (milestone.authRejectionText e
          (effectiveMilestone cfg e.repoOwnerLogin e.repoName)) ∈
        (milestone.handle gc e cfg).calls) ∧
    (∀ arg members ms, milestoneFindSubmatch e.body = some arg →
      (milestone.determineMaintainers gc
        (effectiveMilestone cfg e.repoOwnerLogin e.repoName) e.repoOwnerLogin).2 =
        .ok members →
      (members.any fun person =>
        github.NormLogin person.login == github.NormLogin e.userLogin) = true →
      gc.listMilestones e.repoOwnerLogin e.repoName = .ok ms →
      arg ≠ milestone.clearKeyword →
      milestone.mapLookup (milestone.BuildMilestoneMap ms) arg = none →
      (milestone.handle gc e cfg).ret =
        gc.createComment e.repoOwnerLogin e.repoName e.number
          (milestone.invalidRejectionText e ms) ∧
      Call.createComment e.repoOwnerLogin e.repoName e.number
        (milestone.invalidRejectionText e ms) ∈ (milestone.handle gc e cfg).calls) ∧
    (∀ members, statusFindAll e.body ≠ [] →
      (milestonestatus.determineMaintainers gc
        (effectiveMilestone cfg e.repoOwnerLogin e.repoName) e.repoOwnerLogin).2 =
        .ok members →
      (members.any fun person =>
        goToLower person.login == goToLower e.userLogin) = false →
      (milestonestatus.handle gc e cfg).ret =
        gc.createComment e.repoOwnerLogin e.repoName e.number
          (milestonestatus.authRejectionText e
            (effectiveMilestone cfg e.repoOwnerLogin e.repoName)) ∧
      Call.createComment e.repoOwnerLogin e.repoName e.number
        (milestonestatus.authRejectionText e
          (effectiveMilestone cfg e.repoOwnerLogin e.repoName)) ∈
        (milestonestatus.handle gc e cfg).calls) := by
  refine ⟨fun arg members hm hd hauth => ?_,
    fun arg members ms hm hd hauth hms hnc hmiss => ?_,
    fun members hne hd hauth => ?_⟩
  · rw [milestone.handle_unauthorized gc e cfg arg members ha hm hd hauth]
    exact ⟨rfl, List.mem_cons_of_mem _ (List.mem_cons_self _ _)⟩
  · rw [milestone.handle_invalid gc e cfg arg members ms ha hm hd hauth hms hnc hmiss]
    exact ⟨rfl, List.mem_cons_of_mem _ (List.mem_cons_of_mem _ (List.mem_cons_self _ _))⟩
  · rw [milestonestatus.status_handle_unauthorized gc e cfg members ha hne hd hauth]
    exact ⟨rfl, List.mem_cons_of_mem _ (List.mem_cons_self _ _)⟩

/-- Witness for C10: with a client whose comment posting fails, each rejection
path returns that posting error. -/
theorem rejection_returns_post_result_c10_witness :
    (milestone.handle gcPostErr evBob cfg1).ret = some "postfail" ∧
    (milestone.handle gcPostErr evWrong cfg1).ret = some "postfail" ∧
    (milestonestatus.handle gcPostErr evStatusBob cfg1).ret = some "postfail" :=
  ⟨((rejection_returns_post_result_c10 gcPostErr evBob cfg1 (by decide)).1
      "v1.10" [⟨"Alice"⟩] (by decide) rfl (by decide)).1,
    ((rejection_returns_post_result_c10 gcPostErr evWrong cfg1 (by decide)).2.1
      "v2" [⟨"Alice"⟩] [⟨"v1.10", 42⟩, ⟨"v1.9", 41⟩] (by decide) rfl (by decide) rfl
      (by decide) (by decide)).1,
    ((rejection_returns_post_result_c10 gcPostErr evStatusBob cfg1 (by decide)).2.2
      [⟨"Alice"⟩] (by decide) rfl (by decide)).1⟩

/-- Claim C8: if a set-milestone, clear-milestone, or add-label call fails,
the failure is logged with repo, issue number and the value being applied,
and swallowed: the handler returns no error, posts no user-facing feedback,
and in the status case continues to the next recognized keyword. -/
theorem mutation_failure_swallowed_c8 (gc : GithubClient)
    (e : github.GenericCommentEvent) (cfg : String → Option plugins.Milestone)
    (ha : e.action = github.GenericCommentActionCreated) :
    (∀ members ms err, milestoneFindSubmatch e.body = some milestone.clearKeyword →
      (milestone.determineMaintainers gc
        (effectiveMilestone cfg e.repoOwnerLogin e.repoName) e.repoOwnerLogin).2 =
        .ok members →
      (members.any fun person =>
        github.NormLogin person.login == github.NormLogin e.userLogin) = true →
      gc.listMilestones e.repoOwnerLogin e.repoName = .ok ms →
      gc.clearMilestone e.repoOwnerLogin e.repoName e.number = some err →
      (milestone.handle gc e cfg).ret = none ∧
        (∀ c ∈ (milestone.handle gc e cfg).calls, c.isCreateComment = false) ∧
        (⟨err, "Error clearing the milestone for " ++ e.repoOwnerLogin ++ "/" ++
          e.repoName ++ "#" ++ toString e.number ++ "."⟩ : LogEntry) ∈
          (milestone.handle gc e cfg).logs) ∧
    (∀ arg members ms num err, milestoneFindSubmatch e.body = some arg →
      (milestone.determineMaintainers gc
        (effectiveMilestone cfg e.repoOwnerLogin e.repoName) e.repoOwnerLogin).2 =
        .ok members →
      (members.any fun person =>
        github.NormLogin person.login == github.NormLogin e.userLogin) = true →
      gc.listMilestones e.repoOwnerLogin e.repoName = .ok ms →
      arg ≠ milestone.clearKeyword →
      milestone.mapLookup (milestone.BuildMilestoneMap ms) arg = some num →
      gc.setMilestone e.repoOwnerLogin e.repoName e.number num = some err →
      (milestone.handle gc e cfg).ret = none ∧
        (∀ c ∈ (milestone.handle gc e cfg).calls, c.isCreateComment = false) ∧
        (⟨err, "Error adding the milestone " ++ arg ++ " to " ++ e.repoOwnerLogin ++
          "/" ++ e.repoName ++ "#" ++ toString e.number ++ "."⟩ : LogEntry) ∈
          (milestone.handle gc e cfg).logs) ∧
    (∀ members, statusFindAll e.body ≠ [] →
      (milestonestatus.determineMaintainers gc
        (effectiveMilestone cfg e.repoOwnerLogin e.repoName) e.repoOwnerLogin).2 =
        .ok members →
      (members.any fun person =>
        goToLower person.login == goToLower e.userLogin) = true →
      (milestonestatus.handle gc e cfg).ret = none ∧
        (milestonestatus.handle gc e cfg).calls =
          (milestonestatus.determineMaintainers gc
            (effectiveMilestone cfg e.repoOwnerLogin e.repoName) e.repoOwnerLogin).1 ::
            (statusFindAll e.body).filterMap
              (milestonestatus.addLabelCall e.repoOwnerLogin e.repoName e.number) ∧
        (∀ m ∈ statusFindAll e.body, ∀ l err,
          milestonestatus.statusMap (trimSpace m) = some l →
          gc.addLabel e.repoOwnerLogin e.repoName e.number l = some err →
          (⟨err, "Error adding the label \"" ++ l ++ "\" to " ++ e.repoOwnerLogin ++
            "/" ++ e.repoName ++ "#" ++ toString e.number ++ "."⟩ : LogEntry) ∈
            (milestonestatus.handle gc e cfg).logs)) := by
  refine ⟨fun members ms err hm hd hauth hms hclear => ?_,
    fun arg members ms num err hm hd hauth hms hnc hhit hset => ?_,
    fun members hne hd hauth => ?_⟩
  · rw [milestone.handle_clear gc e cfg members ms ha hm hd hauth hms]
    refine ⟨rfl, fun c hc => ?_, ?_⟩
    · have hc : c = (milestone.determineMaintainers gc
          (effectiveMilestone cfg e.repoOwnerLogin e.repoName) e.repoOwnerLogin).1 ∨
          c = Call.listMilestones e.repoOwnerLogin e.repoName ∨
          c = Call.clearMilestone e.repoOwnerLogin e.repoName e.number := by
        simpa using hc
      rcases hc with hc | hc | hc <;> subst hc
      · exact milestone_determineMaintainers_fst_not_comment gc _ _
      · rfl
      · rfl
    · show _ ∈ (match gc.clearMilestone e.repoOwnerLogin e.repoName e.number with
        | none => ([] : List LogEntry)
        | some err => [⟨err, "Error clearing the milestone for " ++ e.repoOwnerLogin ++
            "/" ++ e.repoName ++ "#" ++ toString e.number ++ "."⟩])
      rw [hclear]
      exact List.mem_singleton.mpr rfl
  · rw [milestone.handle_set gc e cfg arg members ms num ha hm hd hauth hms hnc hhit]
    refine ⟨rfl, fun c hc => ?_, ?_⟩
    · have hc : c = (milestone.determineMaintainers gc
          (effectiveMilestone cfg e.repoOwnerLogin e.repoName) e.repoOwnerLogin).1 ∨
          c = Call.listMilestones e.repoOwnerLogin e.repoName ∨
          c = Call.setMilestone e.repoOwnerLogin e.repoName e.number num := by
        simpa using hc
      rcases hc with hc | hc | hc <;> subst hc
      · exact milestone_determineMaintainers_fst_not_comment gc _ _
      · rfl
      · rfl
    · show _ ∈ (match gc.setMilestone e.repoOwnerLogin e.repoName e.number num with
        | none => ([] : List LogEntry)
        | some err => [⟨err, "Error adding the milestone " ++ arg ++ " to " ++
            e.repoOwnerLogin ++ "/" ++ e.repoName ++ "#" ++ toString e.number ++ "."⟩])
      rw [hset]
      exact List.mem_singleton.mpr rfl
  · rw [milestonestatus.handle_authorized gc e cfg members ha hne hd hauth]
    refine ⟨rfl, rfl, fun m hmem l err hsm herr => ?_⟩
    show _ ∈ (statusFindAll e.body).filterMap
      (milestonestatus.addLabelLog gc e.repoOwnerLogin e.repoName e.number)
    refine List.mem_filterMap.mpr ⟨m, hmem, ?_⟩
    simp [milestonestatus.addLabelLog, hsm, herr]

/-- Witness for C8: with a client whose mutations all fail, the clear, set and
add-label paths return nil, post nothing, and log the failure. -/
theorem mutation_failure_swallowed_c8_witness :
    (milestone.handle gcMutErr evClear cfg1).ret = none ∧
    (milestone.handle gcMutErr ev1 cfg1).ret = none ∧
    (milestonestatus.handle gcMutErr evStatus cfg1).ret = none ∧
    (⟨"labelfail", "Error adding the label \"status/in-progress\" to k/k#3."⟩ : LogEntry) ∈
      (milestonestatus.handle gcMutErr evStatus cfg1).logs :=
  have h3 := (mutation_failure_swallowed_c8 gcMutErr evStatus cfg1 (by decide)).2.2
    [⟨"Alice"⟩] (by decide) rfl (by decide)
  ⟨((mutation_failure_swallowed_c8 gcMutErr evClear cfg1 (by decide)).1
      [⟨"Alice"⟩] [⟨"v1.10", 42⟩, ⟨"v1.9", 41⟩] "clearfail" (by decide) rfl (by decide)
      rfl rfl).1,
    ((mutation_failure_swallowed_c8 gcMutErr ev1 cfg1 (by decide)).2.1
      "v1.10" [⟨"Alice"⟩] [⟨"v1.10", 42⟩, ⟨"v1.9", 41⟩] 42 "setfail" (by decide) rfl
      (by decide) rfl (by decide) (by decide) rfl).1,
    h3.1,
    h3.2.2 "in-progress" (by decide) "status/in-progress" "labelfail" (by decide) rfl⟩

/-- Claim C6: in the status handler, each independently matched /status line's
trimmed argument is looked up in the fixed status-to-label mapping;
unrecognized keywords are silently skipped with no feedback comment and no
error, and each recognized keyword produces one addLabel call with the mapped
label, evaluated in document order. -/
theorem status_vocabulary_c6 (gc : GithubClient)
    (e : github.GenericCommentEvent) (cfg : String → Option plugins.Milestone)
    (members : List github.TeamMember)
    (ha : e.action = github.GenericCommentActionCreated)
    (hne : statusFindAll e.body ≠ [])
    (hd : (milestonestatus.determineMaintainers gc
      (effectiveMilestone cfg e.repoOwnerLogin e.repoName) e.repoOwnerLogin).2 =
      .ok members)
    (hauth : (members.any fun person =>
      goToLower person.login == goToLower e.userLogin) = true) :
    (milestonestatus.handle gc e cfg).calls =
      (milestonestatus.determineMaintainers gc
        (effectiveMilestone cfg e.repoOwnerLogin e.repoName) e.repoOwnerLogin).1 ::
        (statusFindAll e.body).filterMap
          (milestonestatus.addLabelCall e.repoOwnerLogin e.repoName e.number) ∧
    (milestonestatus.handle gc e cfg).ret = none ∧
    (∀ c ∈ (milestonestatus.handle gc e cfg).calls, c.isCreateComment = false) ∧
    (∀ m ∈ statusFindAll e.body, ∀ l, milestonestatus.statusMap (trimSpace m) = some l →
      Call.addLabel e.repoOwnerLogin e.repoName e.number l ∈
        (milestonestatus.handle gc e cfg).calls) := by
  rw [milestonestatus.handle_authorized gc e cfg members ha hne hd hauth]
  refine ⟨rfl, rfl, fun c hc => ?_, fun m hmem l hsm => ?_⟩
  · have hc : c = (milestonestatus.determineMaintainers gc
        (effectiveMilestone cfg e.repoOwnerLogin e.repoName) e.repoOwnerLogin).1 ∨
        c ∈ (statusFindAll e.body).filterMap
          (milestonestatus.addLabelCall e.repoOwnerLogin e.repoName e.number) := by
      simpa using hc
    rcases hc with hc | hc
    · subst hc
      exact milestonestatus_determineMaintainers_fst_not_comment gc _ _
    · obtain ⟨m, _, hsome⟩ := List.mem_filterMap.mp hc
      obtain ⟨l, _, rfl⟩ := addLabelCall_shape hsome
      rfl
  · refine List.mem_cons_of_mem _ (List.mem_filterMap.mpr ⟨m, hmem, ?_⟩)
    simp [milestonestatus.addLabelCall, hsm]

/-- Witness for C6: the two-line status comment with one recognized and one
bogus keyword yields exactly one addLabel call and no comment. -/
theorem status_vocabulary_c6_witness :
    (milestonestatus.handle gcOK evStatus cfg1).calls =
      [Call.listTeamMembersBySlug "k" "mm" "all",
        Call.addLabel "k" "k" 3 "status/in-progress"] ∧
    (milestonestatus.handle gcOK evStatus cfg1).ret = none :=
  have h := status_vocabulary_c6 gcOK evStatus cfg1 [⟨"Alice"⟩] (by decide)
    (by decide) rfl (by decide)
  ⟨h.1.trans (by decide), h.2.1⟩

/-- Claim C5: for an authorized milestone request whose argument is neither
"clear" nor a live title, no mutation occurs and the posted rejection lists
every known milestone title (later duplicates overwriting earlier entries of
the title-to-id map), each back-tick-quoted, sorted lexicographically
ascending, comma-joined, and reminds the user of the clear keyword. -/
theorem invalid_milestone_options_c5 (gc : GithubClient)
    (e : github.GenericCommentEvent) (cfg : String → Option plugins.Milestone)
    (arg : String) (members : List github.TeamMember) (ms : List github.Milestone)
    (ha : e.action = github.GenericCommentActionCreated)
    (hm : milestoneFindSubmatch e.body = some arg)
    (hd : (milestone.determineMaintainers gc
      (effectiveMilestone cfg e.repoOwnerLogin e.repoName) e.repoOwnerLogin).2 =
      .ok members)
    (hauth : (members.any fun person =>
      github.NormLogin person.login == github.NormLogin e.userLogin) = true)
    (hms : gc.listMilestones e.repoOwnerLogin e.repoName = .ok ms)
    (hnc : arg ≠ milestone.clearKeyword)
    (hmiss : milestone.mapLookup (milestone.BuildMilestoneMap ms) arg = none) :
    (milestone.handle gc e cfg).calls =
      [(milestone.determineMaintainers gc
          (effectiveMilestone cfg e.repoOwnerLogin e.repoName) e.repoOwnerLogin).1,
        Call.listMilestones e.repoOwnerLogin e.repoName,
        Call.createComment e.repoOwnerLogin e.repoName e.number
          (milestone.invalidRejectionText e ms)] ∧
    (∀ c ∈ (milestone.handle gc e cfg).calls, c.isMutation = false) ∧
    List.Sorted (· ≤ ·) (milestone.sortedOptions (milestone.BuildMilestoneMap ms)) ∧
    List.Perm (milestone.sortedOptions (milestone.BuildMilestoneMap ms))
      ((milestone.BuildMilestoneMap ms).map fun p => "`" ++ p.1 ++ "`") ∧
    (∀ t, t ∈ (milestone.BuildMilestoneMap ms).map Prod.fst ↔
      t ∈ ms.map github.Milestone.title) ∧
    (∀ t, milestone.mapLookup (milestone.BuildMilestoneMap ms) t =
      ((ms.filter fun mi => mi.title == t).getLast?).map fun mi => mi.number) ∧
    Mentions (milestone.invalidRejectionText e ms)
      (String.intercalate ", "
        (milestone.sortedOptions (milestone.BuildMilestoneMap ms))) ∧
    Mentions (milestone.invalidRejectionText e ms) milestone.clearKeyword := by
  have H := milestone.handle_invalid gc e cfg arg members ms ha hm hd hauth hms hnc hmiss
  refine ⟨by rw [H]; rfl, ?_, milestone.sortedOptions_sorted _,
    milestone.sortedOptions_perm _,
    fun t => milestone.mem_keys_BuildMilestoneMap ms t,
    fun t => milestone.mapLookup_BuildMilestoneMap ms t, ?_, ?_⟩
  · rw [H]
    intro c hc
    have hc : c = (milestone.determineMaintainers gc
        (effectiveMilestone cfg e.repoOwnerLogin e.repoName) e.repoOwnerLogin).1 ∨
        c = Call.listMilestones e.repoOwnerLogin e.repoName ∨
        c = Call.createComment e.repoOwnerLogin e.repoName e.number
          (milestone.invalidRejectionText e ms) := by
      simpa using hc
    rcases hc with hc | hc | hc <;> subst hc
    · exact milestone_determineMaintainers_fst_not_mutation gc _ _
    · rfl
    · rfl
  · exact mentions_trans (formatResponseRaw_mentions _ _ _ _).2.2.2
      (invalidMilestone_mentions _ _).1
  · exact mentions_trans (formatResponseRaw_mentions _ _ _ _).2.2.2
      (invalidMilestone_mentions _ _).2

/-- Witness for C5: the unknown title "v2" posts the sorted quoted option list
and mutates nothing. -/
theorem invalid_milestone_options_c5_witness :
    (milestone.handle gcOK evWrong cfg1).calls =
      [Call.listTeamMembersBySlug "k" "mm" "all", Call.listMilestones "k" "k",
        Call.createComment "k" "k" 3 (milestone.invalidRejectionText evWrong
          [⟨"v1.10", 42⟩, ⟨"v1.9", 41⟩])] ∧
    Mentions (milestone.invalidRejectionText evWrong [⟨"v1.10", 42⟩, ⟨"v1.9", 41⟩])
      milestone.clearKeyword :=
  have h := invalid_milestone_options_c5 gcOK evWrong cfg1 "v2" [⟨"Alice"⟩]
    [⟨"v1.10", 42⟩, ⟨"v1.9", 41⟩] (by decide) (by decide) rfl (by decide) rfl
    (by decide) (by decide)
  ⟨h.1.trans rfl, h.2.2.2.2.2.2.2⟩

/-- Claim C4: the requesting identity is authorized iff its normalized login
case-insensitively equals some resolved member's normalized login; for every
unauthorized request, exactly one comment is posted, containing the group
slug and the friendly name of the responsible role, and no mutation call
occurs. -/
theorem authorization_check_c4 (gc : GithubClient)
    (e : github.GenericCommentEvent) (cfg : String → Option plugins.Milestone)
    (members : List github.TeamMember)
    (ha : e.action = github.GenericCommentActionCreated) :
    (∀ arg, milestoneFindSubmatch e.body = some arg →
      (milestone.determineMaintainers gc
        (effectiveMilestone cfg e.repoOwnerLogin e.repoName) e.repoOwnerLogin).2 =
        .ok members →
      ((¬ ∃ p ∈ members, github.NormLogin p.login = github.NormLogin e.userLogin) →
        (milestone.handle gc e cfg).calls =
          [(milestone.determineMaintainers gc
              (effectiveMilestone cfg e.repoOwnerLogin e.repoName) e.repoOwnerLogin).1,
            Call.createComment e.repoOwnerLogin e.repoName e.number
              (milestone.authRejectionText e
                (effectiveMilestone cfg e.repoOwnerLogin e.repoName))] ∧
        ((milestone.handle gc e cfg).calls.filter Call.isCreateComment).length = 1 ∧
        Mentions (milestone.authRejectionText e
            (effectiveMilestone cfg e.repoOwnerLogin e.repoName))
          (effectiveMilestone cfg e.repoOwnerLogin e.repoName).MaintainersTeam ∧
        Mentions (milestone.authRejectionText e
            (effectiveMilestone cfg e.repoOwnerLogin e.repoName))
          (effectiveMilestone cfg e.repoOwnerLogin e.repoName).MaintainersFriendlyName ∧
        (∀ c ∈ (milestone.handle gc e cfg).calls, c.isMutation = false)) ∧
      ((∃ p ∈ members, github.NormLogin p.login = github.NormLogin e.userLogin) →
        (milestone.handle gc e cfg).calls.take 2 =
          [(milestone.determineMaintainers gc
              (effectiveMilestone cfg e.repoOwnerLogin e.repoName) e.repoOwnerLogin).1,
            Call.listMilestones e.repoOwnerLogin e.repoName])) ∧
    (statusFindAll e.body ≠ [] →
      (milestonestatus.determineMaintainers gc
        (effectiveMilestone cfg e.repoOwnerLogin e.repoName) e.repoOwnerLogin).2 =
        .ok members →
      ((¬ ∃ p ∈ members, github.NormLogin p.login = github.NormLogin e.userLogin) →
        (milestonestatus.handle gc e cfg).calls =
          [(milestonestatus.determineMaintainers gc
              (effectiveMilestone cfg e.repoOwnerLogin e.repoName) e.repoOwnerLogin).1,
            Call.createComment e.repoOwnerLogin e.repoName e.number
              (milestonestatus.authRejectionText e
                (effectiveMilestone cfg e.repoOwnerLogin e.repoName))] ∧
        ((milestonestatus.handle gc e cfg).calls.filter Call.isCreateComment).length = 1 ∧
        Mentions (milestonestatus.authRejectionText e
            (effectiveMilestone cfg e.repoOwnerLogin e.repoName))
          (effectiveMilestone cfg e.repoOwnerLogin e.repoName).MaintainersTeam ∧
        Mentions (milestonestatus.authRejectionText e
            (effectiveMilestone cfg e.repoOwnerLogin e.repoName))
          (effectiveMilestone cfg e.repoOwnerLogin e.repoName).MaintainersFriendlyName ∧
        (∀ c ∈ (milestonestatus.handle gc e cfg).calls, c.isMutation = false)) ∧
      ((∃ p ∈ members, github.NormLogin p.login = github.NormLogin e.userLogin) →
        ∀ c ∈ (milestonestatus.handle gc e cfg).calls, c.isCreateComment = false)) := by
  constructor
  · intro arg hm hd
    constructor
    · intro hA
      have hauth : (members.any fun person =>
          github.NormLogin person.login == github.NormLogin e.userLogin) = false :=
        Bool.eq_false_iff.mpr fun h => hA ((normAny_iff members e.userLogin).1 h)
      have H := milestone.handle_unauthorized gc e cfg arg members ha hm hd hauth
      have hnc := milestone_determineMaintainers_fst_not_comment gc
        (effectiveMilestone cfg e.repoOwnerLogin e.repoName) e.repoOwnerLogin
      refine ⟨by rw [H]; rfl, ?_, ?_, ?_, ?_⟩
      · rw [H]
        show (List.filter Call.isCreateComment [_, _]).length = 1
        rw [List.filter_cons_of_neg (by simp [hnc]), List.filter_cons_of_pos (by rfl)]
        rfl
      · exact mentions_trans (formatResponseRaw_mentions _ _ _ _).2.2.2
          (milestone_mustBeAuthorized_mentions _ _ _ _ _).1
      · exact mentions_trans (formatResponseRaw_mentions _ _ _ _).2.2.2
          (milestone_mustBeAuthorized_mentions _ _ _ _ _).2
      · rw [H]
        intro c hc
        have hc : c = (milestone.determineMaintainers gc
            (effectiveMilestone cfg e.repoOwnerLogin e.repoName) e.repoOwnerLogin).1 ∨
            c = Call.createComment e.repoOwnerLogin e.repoName e.number
              (milestone.authRejectionText e
                (effectiveMilestone cfg e.repoOwnerLogin e.repoName)) := by
          simpa using hc
        rcases hc with hc | hc <;> subst hc
        · exact milestone_determineMaintainers_fst_not_mutation gc _ _
        · rfl
    · intro hA
      have hauth : (members.any fun person =>
          github.NormLogin person.login == github.NormLogin e.userLogin) = true :=
        (normAny_iff members e.userLogin).2 hA
      cases hms : gc.listMilestones e.repoOwnerLogin e.repoName with
      | error err =>
        rw [milestone.handle_msError gc e cfg arg members err ha hm hd hauth hms]
        rfl
      | ok ms =>
        by_cases hc : arg = milestone.clearKeyword
        · rw [hc] at hm
          rw [milestone.handle_clear gc e cfg members ms ha hm hd hauth hms]
          rfl
        · cases hl : milestone.mapLookup (milestone.BuildMilestoneMap ms) arg with
          | none =>
            rw [milestone.handle_invalid gc e cfg arg members ms ha hm hd hauth hms hc hl]
            rfl
          | some num =>
            rw [milestone.handle_set gc e cfg arg members ms num ha hm hd hauth hms hc hl]
            rfl
  · intro hne hd
    constructor
    · intro hA
      have hauth : (members.any fun person =>
          goToLower person.login == goToLower e.userLogin) = false :=
        Bool.eq_false_iff.mpr fun h => hA ((lowerAny_iff members e.userLogin).1 h)
      have H := milestonestatus.status_handle_unauthorized gc e cfg members ha hne hd hauth
      have hnc := milestonestatus_determineMaintainers_fst_not_comment gc
        (effectiveMilestone cfg e.repoOwnerLogin e.repoName) e.repoOwnerLogin
      refine ⟨by rw [H]; rfl, ?_, ?_, ?_, ?_⟩
      · rw [H]
        show (List.filter Call.isCreateComment [_, _]).length = 1
        rw [List.filter_cons_of_neg (by simp [hnc]), List.filter_cons_of_pos (by rfl)]
        rfl
      · exact (milestonestatus_mustBeAuthorized_mentions _ _ _ _ _).1
      · exact (milestonestatus_mustBeAuthorized_mentions _ _ _ _ _).2
      · rw [H]
        intro c hc
        have hc : c = (milestonestatus.determineMaintainers gc
            (effectiveMilestone cfg e.repoOwnerLogin e.repoName) e.repoOwnerLogin).1 ∨
            c = Call.createComment e.repoOwnerLogin e.repoName e.number
              (milestonestatus.authRejectionText e
                (effectiveMilestone cfg e.repoOwnerLogin e.repoName)) := by
          simpa using hc
        rcases hc with hc | hc <;> subst hc
        · exact milestonestatus_determineMaintainers_fst_not_mutation gc _ _
        · rfl
    · intro hA
      have hauth : (members.any fun person =>
          goToLower person.login == goToLower e.userLogin) = true :=
        (lowerAny_iff members e.userLogin).2 hA
      rw [milestonestatus.handle_authorized gc e cfg members ha hne hd hauth]
      intro c hc
      have hc : c = (milestonestatus.determineMaintainers gc
          (effectiveMilestone cfg e.repoOwnerLogin e.repoName) e.repoOwnerLogin).1 ∨
          c ∈ (statusFindAll e.body).filterMap
            (milestonestatus.addLabelCall e.repoOwnerLogin e.repoName e.number) := by
        simpa using hc
      rcases hc with hc | hc
      · subst hc
        exact milestonestatus_determineMaintainers_fst_not_comment gc _ _
      · obtain ⟨m, _, hsome⟩ := List.mem_filterMap.mp hc
        obtain ⟨l, _, rfl⟩ := addLabelCall_shape hsome
        rfl

/-- Witness for C4: `bob` is rejected with exactly one comment and no
mutation; `alice` (case-insensitively a member) proceeds. -/
theorem authorization_check_c4_witness :
    (milestone.handle gcOK evBob cfg1).calls =
      [Call.listTeamMembersBySlug "k" "mm" "all",
        Call.createComment "k" "k" 3
          (milestone.authRejectionText evBob ⟨7, "mm", "lead"⟩)] ∧
    (milestone.handle gcOK ev1 cfg1).calls.take 2 =
      [Call.listTeamMembersBySlug "k" "mm" "all", Call.listMilestones "k" "k"] ∧
    (milestonestatus.handle gcOK evStatusBob cfg1).calls =
      [Call.listTeamMembersBySlug "k" "mm" "all",
        Call.createComment "k" "k" 3
          (milestonestatus.authRejectionText evStatusBob ⟨7, "mm", "lead"⟩)] :=
  ⟨((((authorization_check_c4 gcOK evBob cfg1 [⟨"Alice"⟩] (by decide)).1
      "v1.10" (by decide) rfl).1 (by decide)).1).trans rfl,
    ((((authorization_check_c4 gcOK ev1 cfg1 [⟨"Alice"⟩] (by decide)).1
      "v1.10" (by decide) rfl).2 (by decide))).trans rfl,
    ((((authorization_check_c4 gcOK evStatusBob cfg1 [⟨"Alice"⟩] (by decide)).2
      (by decide) rfl).1 (by decide)).1).trans rfl⟩

/-- Claim C1: for every event, the effective group descriptor is the
configuration entry under the exact "org/repo" key if present, otherwise the
entry under the empty-string key; membership is then resolved by listing team
members by slug when the descriptor's slug is non-empty and otherwise by its
numeric id, in both cases with the "all roles" scope: the first API call of
either handler is exactly that listing call. -/
theorem group_resolution_c1 (gc : GithubClient)
    (e : github.GenericCommentEvent) (cfg : String → Option plugins.Milestone)
    (d : plugins.Milestone)
    (ha : e.action = github.GenericCommentActionCreated)
    (hd : cfg (e.repoOwnerLogin ++ "/" ++ e.repoName) = some d ∨
      (cfg (e.repoOwnerLogin ++ "/" ++ e.repoName) = none ∧ cfg "" = some d)) :
    (∀ arg, milestoneFindSubmatch e.body = some arg →
      (milestone.handle gc e cfg).calls.head? = some
        (if d.MaintainersTeam ≠ "" then
          Call.listTeamMembersBySlug e.repoOwnerLogin d.MaintainersTeam github.RoleAll
        else Call.listTeamMembersByID e.repoOwnerLogin d.MaintainersID github.RoleAll)) ∧
    (statusFindAll e.body ≠ [] →
      (milestonestatus.handle gc e cfg).calls.head? = some
        (if d.MaintainersTeam ≠ "" then
          Call.listTeamMembersBySlug e.repoOwnerLogin d.MaintainersTeam github.RoleAll
        else Call.listTeamMembersByID e.repoOwnerLogin d.MaintainersID github.RoleAll)) := by
  have hde : effectiveMilestone cfg e.repoOwnerLogin e.repoName = d := by
    unfold effectiveMilestone
    rcases hd with h | ⟨h1, h2⟩
    · rw [h]
    · rw [h1, h2]
      rfl
  constructor
  · intro arg hm
    rw [milestone_handle_calls_head gc e cfg arg ha hm, hde,
      milestone_determineMaintainers_fst]
  · intro hne
    rw [milestonestatus_handle_calls_head gc e cfg ha hne, hde,
      milestonestatus_determineMaintainers_fst]

/-- Witness for C1: the default descriptor of `cfg1` (empty slug) resolves by
id; the dedicated `k/k` descriptor resolves by slug. -/
theorem group_resolution_c1_witness :
    (milestone.handle gcOK evOther cfg1).calls.head? =
      some (Call.listTeamMembersByID "o" 9 "all") ∧
    (milestonestatus.handle gcOK evStatus cfg1).calls.head? =
      some (Call.listTeamMembersBySlug "k" "mm" "all") :=
  ⟨((group_resolution_c1 gcOK evOther cfg1 ⟨9, "", "global-lead"⟩ (by decide)
      (Or.inr ⟨rfl, rfl⟩)).1 "v1.10" (by decide)).trans (by decide),
    ((group_resolution_c1 gcOK evStatus cfg1 ⟨7, "mm", "lead"⟩ (by decide)
      (Or.inl rfl)).2 (by decide)).trans (by decide)⟩

set_option maxRecDepth 8000 in
/-- Claim C3 counterexample: at this concrete input the milestonestatus
handler posts its authorization rejection as the bare message, which
references neither the original comment's permalink nor its body — refuting
the claim that every rejection message is a quoted/threaded reply referencing
the original comment body, permalink and author. -/
theorem rejection_quoted_reply_c3_counterexample :
    (milestonestatus.handle gcOK evStatusBob cfg1).calls =
      [Call.listTeamMembersBySlug "k" "mm" "all",
        Call.createComment "k" "k" 3
          (milestonestatus.authRejectionText evStatusBob ⟨7, "mm", "lead"⟩)] ∧
    ¬Mentions (milestonestatus.authRejectionText evStatusBob ⟨7, "mm", "lead"⟩)
        evStatusBob.htmlURL ∧
    ¬Mentions (milestonestatus.authRejectionText evStatusBob ⟨7, "mm", "lead"⟩)
        evStatusBob.body := by
  refine ⟨?_, ?_, ?_⟩ <;> decide

/-- Claim C3 (amended): rejection messages in the milestone handler — the
authorization failure and the invalid milestone — are posted as quoted
replies referencing the original comment body, permalink and author; the
milestonestatus handler's authorization rejection is instead posted as the
bare authorization message, without the quoted-reply wrapper. -/
theorem rejection_quoted_reply_c3_amended (gc : GithubClient)
    (e : github.GenericCommentEvent) (cfg : String → Option plugins.Milestone)
    (ha : e.action = github.GenericCommentActionCreated) :
    (∀ arg members, milestoneFindSubmatch e.body = some arg →
      (milestone.determineMaintainers gc
        (effectiveMilestone cfg e.repoOwnerLogin e.repoName) e.repoOwnerLogin).2 =
        .ok members →
      (members.any fun person =>
        github.NormLogin person.login == github.NormLogin e.userLogin) = false →
      (milestone.handle gc e cfg).calls =
        [(milestone.determineMaintainers gc
            (effectiveMilestone cfg e.repoOwnerLogin e.repoName) e.repoOwnerLogin).1,
          Call.createComment e.repoOwnerLogin e.repoName e.number
            (milestone.authRejectionText e
              (effectiveMilestone cfg e.repoOwnerLogin e.repoName))] ∧
      Mentions (milestone.authRejectionText e
        (effectiveMilestone cfg e.repoOwnerLogin e.repoName)) e.body ∧
      Mentions (milestone.authRejectionText e
        (effectiveMilestone cfg e.repoOwnerLogin e.repoName)) e.htmlURL ∧
      Mentions (milestone.authRejectionText e
        (effectiveMilestone cfg e.repoOwnerLogin e.repoName)) e.userLogin) ∧
    (∀ arg members ms, milestoneFindSubmatch e.body = some arg →
      (milestone.determineMaintainers gc
        (effectiveMilestone cfg e.repoOwnerLogin e.repoName) e.repoOwnerLogin).2 =
        .ok members →
      (members.any fun person =>
        github.NormLogin person.login == github.NormLogin e.userLogin) = true →
      gc.listMilestones e.repoOwnerLogin e.repoName = .ok ms →
      arg ≠ milestone.clearKeyword →
      milestone.mapLookup (milestone.BuildMilestoneMap ms) arg = none →
      Call.createComment e.repoOwnerLogin e.repoName e.number
        (milestone.invalidRejectionText e ms) ∈ (milestone.handle gc e cfg).calls ∧
      Mentions (milestone.invalidRejectionText e ms) e.body ∧
      Mentions (milestone.invalidRejectionText e ms) e.htmlURL ∧
      Mentions (milestone.invalidRejectionText e ms) e.userLogin) ∧
    (∀ members, statusFindAll e.body ≠ [] →
      (milestonestatus.determineMaintainers gc
        (effectiveMilestone cfg e.repoOwnerLogin e.repoName) e.repoOwnerLogin).2 =
        .ok members →
      (members.any fun person =>
        goToLower person.login == goToLower e.userLogin) = false →
      (milestonestatus.handle gc e cfg).calls =
        [(milestonestatus.determineMaintainers gc
            (effectiveMilestone cfg e.repoOwnerLogin e.repoName) e.repoOwnerLogin).1,
          Call.createComment e.repoOwnerLogin e.repoName e.number
            (milestonestatus.authRejectionText e
              (effectiveMilestone cfg e.repoOwnerLogin e.repoName))]) := by
  refine ⟨fun arg members hm hd hauth => ?_, fun arg members ms hm hd hauth hms hnc hmiss => ?_,
    fun members hne hd hauth => ?_⟩
  · rw [milestone.handle_unauthorized gc e cfg arg members ha hm hd hauth]
    exact ⟨rfl, (formatResponseRaw_mentions _ _ _ _).1,
      (formatResponseRaw_mentions _ _ _ _).2.1,
      (formatResponseRaw_mentions _ _ _ _).2.2.1⟩
  · rw [milestone.handle_invalid gc e cfg arg members ms ha hm hd hauth hms hnc hmiss]
    exact ⟨List.mem_cons_of_mem _ (List.mem_cons_of_mem _ (List.mem_cons_self _ _)),
      (formatResponseRaw_mentions _ _ _ _).1,
      (formatResponseRaw_mentions _ _ _ _).2.1,
      (formatResponseRaw_mentions _ _ _ _).2.2.1⟩
  · rw [milestonestatus.status_handle_unauthorized gc e cfg members ha hne hd hauth]
    rfl

/-- Witness for the amended C3 at concrete inputs. -/
theorem rejection_quoted_reply_c3_witness :
    Mentions (milestone.authRejectionText evBob ⟨7, "mm", "lead"⟩) evBob.body ∧
    Mentions (milestone.invalidRejectionText evWrong
      [⟨"v1.10", 42⟩, ⟨"v1.9", 41⟩]) evWrong.htmlURL ∧
    (milestonestatus.handle gcOK evStatusBob cfg1).calls =
      [Call.listTeamMembersBySlug "k" "mm" "all",
        Call.createComment "k" "k" 3
          (milestonestatus.authRejectionText evStatusBob ⟨7, "mm", "lead"⟩)] :=
  have h := rejection_quoted_reply_c3_amended gcOK evBob cfg1 (by decide)
  have h2 := rejection_quoted_reply_c3_amended gcOK evWrong cfg1 (by decide)
  have h3 := (rejection_quoted_reply_c3_amended gcOK evStatusBob cfg1 (by decide)).2.2
    [⟨"Alice"⟩] (by decide) rfl (by decide)
  ⟨(h.1 "v1.10" [⟨"Alice"⟩] (by decide) rfl (by decide)).2.1,
    (h2.2.1 "v2" [⟨"Alice"⟩] [⟨"v1.10", 42⟩, ⟨"v1.9", 41⟩] (by decide) rfl (by decide)
      rfl (by decide) (by decide)).2.2.1,
    h3.trans rfl⟩
end Prow
